import Mathlib

/-!
Verification development for the secret-rotation Lambda handlers and the
IAM-remediation severity classifier of this repository.

The rotation handlers (database, api-key, custom, oauth variants) are shallowly
embedded as pure functions over an explicit model of the version-stage store
(the external secret-management service).  Each step function returns the
post-state of the store, an optional error (a raised Python exception), the
list of store API calls it issued, and the list of database operations it
issued, so that claims about "no write happened" or "the exact statement text"
are directly statable.

Store semantics are modelled from the spec, section 6 (the store is an external
collaborator, not part of the repository's source):
  - GetSecretValue fails (returns none) if no version matches both the
    requested version id and stage label;
  - PutSecretValue creates or overwrites the pending version for the given
    token, attaching the PENDING label to it and detaching it from any other
    version (a stage label is attached to at most one version at a time);
  - UpdateVersionStage atomically moves a label from one version to another;
    it fails, mutating nothing, when the destination version does not exist.

JSON payloads are modelled as a tagged union (structured object vs plain
string), with serialisation and parsing of structured objects treated as
mutually inverse, as directed by the design notes of the spec.
-/

/-- Value of one field of a structured secret payload (a JSON scalar). -/
inductive JsonValue where
  | str (s : String)
  | num (n : Int)
deriving DecidableEq

/-- Python str() rendering of a scalar, as used by f-string interpolation. -/
def JsonValue.pyStr : JsonValue → String
  | .str s => s
  | .num n => toString n

/-- Payload of one secret version: either a JSON object (a dict of scalar
fields, in insertion order) or a plain string on which json.loads fails. -/
inductive SecretPayload where
  | obj (fields : List (String × JsonValue))
  | raw (s : String)
deriving DecidableEq

/-- Semantics of json.loads on a stored payload: a structured payload parses
to its field list, a plain string raises JSONDecodeError (none). -/
def SecretPayload.parseJson : SecretPayload → Option (List (String × JsonValue))
  | .obj fields => some fields
  | .raw _ => none

/-- Python dict lookup d.get(k): first binding of the key, if any. -/
def lookupField (fields : List (String × JsonValue)) (k : String) : Option JsonValue :=
  (fields.find? (fun p => p.1 == k)).map (·.2)

/-- Python dict assignment d[k] = v: replace the binding in place when the key
is present, append it otherwise (insertion order is preserved). -/
def setField (fields : List (String × JsonValue)) (k : String) (v : JsonValue) :
    List (String × JsonValue) :=
  if fields.any (fun p => p.1 == k) then
    fields.map (fun p => if p.1 == k then (k, v) else p)
  else
    fields ++ [(k, v)]

/-- One version held by the store for the rotated secret: an opaque version
id, a payload, and the stage labels currently attached to it. -/
structure SecretVersion where
  vid : String
  payload : SecretPayload
  stages : List String
deriving DecidableEq

/-- State of the store for one secret: its versions, in store iteration
order (the order DescribeSecret reports the version-to-stages mapping). -/
abbrev Store := List SecretVersion

/-- Well-formedness of the store state: version ids are unique, since the
store keys versions by their id. -/
abbrev StoreWF (s : Store) : Prop := (s.map SecretVersion.vid).Nodup

/-- Number of versions currently carrying the given stage label. -/
def countStage (s : Store) (stage : String) : Nat :=
  s.countP (fun v => v.stages.contains stage)

/-- Version ids of the versions currently carrying the given stage label,
in store order. -/
def stageHolders (s : Store) (stage : String) : List String :=
  (s.filter (fun v => v.stages.contains stage)).map (·.vid)

/-- Modelled from the spec: GetSecretValue with an optional version id and a
stage label; returns the payload of the first version matching both, and
fails (none, the ResourceNotFoundException) when no version matches. -/
def get_secret_value (s : Store) (versionId : Option String) (versionStage : String) :
    Option SecretPayload :=
  match versionId with
  | some vid =>
      (s.find? (fun v => v.vid == vid && v.stages.contains versionStage)).map (·.payload)
  | none =>
      (s.find? (fun v => v.stages.contains versionStage)).map (·.payload)

/-- Detach the given stage label from every version. -/
def removeStageAll (s : Store) (stage : String) : Store :=
  s.map (fun v => { v with stages := v.stages.filter (fun st => st ≠ stage) })

/-- Modelled from the spec: PutSecretValue with VersionStages=[AWSPENDING].
Creates or overwrites the version identified by the client request token,
giving it the supplied payload and the AWSPENDING label, and detaches
AWSPENDING from every other version (a stage label sits on at most one
version at a time). -/
def put_secret_value (s : Store) (token : String) (payload : SecretPayload) : Store :=
  let s0 := removeStageAll s "AWSPENDING"
  if s0.any (fun v => v.vid == token) then
    s0.map (fun v =>
      if v.vid == token then
        { v with payload := payload, stages := v.stages ++ ["AWSPENDING"] }
      else v)
  else
    s0 ++ [{ vid := token, payload := payload, stages := ["AWSPENDING"] }]

/-- Errors a step invocation can surface (Python exceptions and store error
responses).  The message strings follow the source, with apostrophes elided. -/
inductive RotationError where
  | resourceNotFound
  | jsonDecodeError
  | typeError
  | keyError (k : String)
  | invalidRequest
  | connectionError
  | valueError (msg : String)
deriving DecidableEq

/-- Modelled from the spec: UpdateVersionStage, the atomic label move.  The
label is attached to the destination version and detached from the optional
source version in one step; when the destination version does not exist the
store fails the request and mutates nothing. -/
def update_secret_version_stage (s : Store) (stage : String) (moveToVersionId : String)
    (removeFromVersionId : Option String) : Except RotationError Store :=
  if s.any (fun v => v.vid == moveToVersionId) then
    .ok (s.map (fun v =>
      if v.vid == moveToVersionId then
        { v with stages := v.stages.filter (fun st => st ≠ stage) ++ [stage] }
      else if removeFromVersionId = some v.vid then
        { v with stages := v.stages.filter (fun st => st ≠ stage) }
      else v))
  else
    .error .invalidRequest

/-- One call issued against the version-stage store, as recorded in a step
invocation trace. -/
inductive StoreOp where
  | getSecretValue (versionId : Option String) (versionStage : String)
  | getRandomPassword (passwordLength : Nat)
  | putSecretValue (clientRequestToken : String) (payload : SecretPayload)
      (versionStages : List String)
  | describeSecret
  | updateSecretVersionStage (versionStage : String) (moveToVersionId : String)
      (removeFromVersionId : Option String)
deriving DecidableEq

/-- One operation issued against the target database system by the database
variant (connection establishment, statement execution, commit). -/
inductive DbOp where
  | connect (secretDict : List (String × JsonValue))
  | execute (query : String) (params : List JsonValue)
  | commit
deriving DecidableEq

/-- Result of one step invocation: the store state after the invocation, the
exception raised (none on success), the store calls issued, and the database
operations issued. -/
structure StepResult where
  store : Store
  err : Option RotationError
  ops : List StoreOp
  dbOps : List DbOp
deriving DecidableEq

/-- Rotation request delivered by the external coordinator: secret
identifier, client request token, and step name. -/
structure RotationRequest where
  secretId : String
  clientRequestToken : String
  step : String
deriving DecidableEq

namespace DatabaseRotation

/-- Step 1 of the database variant (create_secret in
src/infra/lambdas/secret-rotation/database/index.py).  The random password
returned by the GetRandomPassword facility is passed in as the oracle
argument randPw; the code requests PasswordLength=32 and the trace records
that request. -/
def create_secret (randPw : String) (token : String) (s : Store) : StepResult :=
  match get_secret_value s (some token) "AWSPENDING" with
  | some _ =>
      { store := s, err := none,
        ops := [.getSecretValue (some token) "AWSPENDING"], dbOps := [] }
  | none =>
    match get_secret_value s none "AWSCURRENT" with
    | none =>
        { store := s, err := some .resourceNotFound,
          ops := [.getSecretValue (some token) "AWSPENDING",
                  .getSecretValue none "AWSCURRENT"], dbOps := [] }
    | some current =>
      match current.parseJson with
      | none =>
          { store := s, err := some .jsonDecodeError,
            ops := [.getSecretValue (some token) "AWSPENDING",
                    .getSecretValue none "AWSCURRENT"], dbOps := [] }
      | some secret_dict =>
          let newDict := setField secret_dict "password" (.str randPw)
          { store := put_secret_value s token (.obj newDict), err := none,
            ops := [.getSecretValue (some token) "AWSPENDING",
                    .getSecretValue none "AWSCURRENT",
                    .getRandomPassword 32,
                    .putSecretValue token (.obj newDict) ["AWSPENDING"]],
            dbOps := [] }

/-- Step 2 of the database variant (set_secret).  The connection attempt with
the current credentials is an external event, passed in as the oracle
argument connOk; the statement text is built by f-string interpolation of the
pending username, with only the password passed as a bound parameter, exactly
as in the source. -/
def set_secret (connOk : Bool) (token : String) (s : Store) : StepResult :=
  match get_secret_value s (some token) "AWSPENDING" with
  | none =>
      { store := s, err := some .resourceNotFound,
        ops := [.getSecretValue (some token) "AWSPENDING"], dbOps := [] }
  | some pending =>
    match pending.parseJson with
    | none =>
        { store := s, err := some .jsonDecodeError,
          ops := [.getSecretValue (some token) "AWSPENDING"], dbOps := [] }
    | some pending_dict =>
      match get_secret_value s none "AWSCURRENT" with
      | none =>
          { store := s, err := some .resourceNotFound,
            ops := [.getSecretValue (some token) "AWSPENDING",
                    .getSecretValue none "AWSCURRENT"], dbOps := [] }
      | some current =>
        match current.parseJson with
        | none =>
            { store := s, err := some .jsonDecodeError,
              ops := [.getSecretValue (some token) "AWSPENDING",
                      .getSecretValue none "AWSCURRENT"], dbOps := [] }
        | some current_dict =>
          if connOk then
            match lookupField pending_dict "username" with
            | none =>
                { store := s, err := some (.keyError "username"),
                  ops := [.getSecretValue (some token) "AWSPENDING",
                          .getSecretValue none "AWSCURRENT"],
                  dbOps := [.connect current_dict] }
            | some username =>
              match lookupField pending_dict "password" with
              | none =>
                  { store := s, err := some (.keyError "password"),
                    ops := [.getSecretValue (some token) "AWSPENDING",
                            .getSecretValue none "AWSCURRENT"],
                    dbOps := [.connect current_dict] }
              | some new_password =>
                  { store := s, err := none,
                    ops := [.getSecretValue (some token) "AWSPENDING",
                            .getSecretValue none "AWSCURRENT"],
                    dbOps := [.connect current_dict,
                              .execute ("ALTER USER " ++ username.pyStr ++
                                        " WITH PASSWORD %s") [new_password],
                              .commit] }
          else
            { store := s, err := some .connectionError,
              ops := [.getSecretValue (some token) "AWSPENDING",
                      .getSecretValue none "AWSCURRENT"],
              dbOps := [.connect current_dict] }

/-- Step 3 of the database variant (test_secret).  Connects with the pending
credentials (external outcome passed as connOk) and runs the probe query
SELECT 1; the probe result of a successful connection is the value 1, so the
result check succeeds. -/
def test_secret (connOk : Bool) (token : String) (s : Store) : StepResult :=
  match get_secret_value s (some token) "AWSPENDING" with
  | none =>
      { store := s, err := some .resourceNotFound,
        ops := [.getSecretValue (some token) "AWSPENDING"], dbOps := [] }
  | some pending =>
    match pending.parseJson with
    | none =>
        { store := s, err := some .jsonDecodeError,
          ops := [.getSecretValue (some token) "AWSPENDING"], dbOps := [] }
    | some pending_dict =>
      if connOk then
        { store := s, err := none,
          ops := [.getSecretValue (some token) "AWSPENDING"],
          dbOps := [.connect pending_dict, .execute "SELECT 1" []] }
      else
        { store := s, err := some .connectionError,
          ops := [.getSecretValue (some token) "AWSPENDING"],
          dbOps := [.connect pending_dict] }

/-- Step 4 of the database variant (finish_secret).  Reads the
version-to-stages mapping, finds the first version labelled AWSCURRENT,
returns success immediately when that version is the token version, and
otherwise requests the atomic label move.  The custom, oauth and api-key
variants contain a textually identical finish_secret. -/
def finish_secret (token : String) (s : Store) : StepResult :=
  match s.find? (fun v => v.stages.contains "AWSCURRENT") with
  | some v =>
      if v.vid == token then
        { store := s, err := none, ops := [.describeSecret], dbOps := [] }
      else
        match update_secret_version_stage s "AWSCURRENT" token (some v.vid) with
        | .ok s1 =>
            { store := s1, err := none,
              ops := [.describeSecret,
                      .updateSecretVersionStage "AWSCURRENT" token (some v.vid)],
              dbOps := [] }
        | .error e =>
            { store := s, err := some e,
              ops := [.describeSecret,
                      .updateSecretVersionStage "AWSCURRENT" token (some v.vid)],
              dbOps := [] }
  | none =>
      match update_secret_version_stage s "AWSCURRENT" token none with
      | .ok s1 =>
          { store := s1, err := none,
            ops := [.describeSecret,
                    .updateSecretVersionStage "AWSCURRENT" token none],
            dbOps := [] }
      | .error e =>
          { store := s, err := some e,
            ops := [.describeSecret,
                    .updateSecretVersionStage "AWSCURRENT" token none],
            dbOps := [] }

/-- Dispatch of the database variant handler: the four canonical step names
call the matching step function, any other step name raises
ValueError("Invalid step: ...") before any store access. -/
def handler (randPw : String) (connOk : Bool) (event : RotationRequest) (s : Store) :
    StepResult :=
  if event.step = "createSecret" then
    create_secret randPw event.clientRequestToken s
  else if event.step = "setSecret" then
    set_secret connOk event.clientRequestToken s
  else if event.step = "testSecret" then
    test_secret connOk event.clientRequestToken s
  else if event.step = "finishSecret" then
    finish_secret event.clientRequestToken s
  else
    { store := s, err := some (.valueError ("Invalid step: " ++ event.step)),
      ops := [], dbOps := [] }

end DatabaseRotation

namespace ApiKeyRotation

/-- Alphabet used by the api-key and custom generators: ascii letters, digits,
hyphen and underscore (64 characters). -/
def keyAlphabet : List Char :=
  "abcdefghijklmnopqrstuvwxyzABCDEFGHIJKLMNOPQRSTUVWXYZ0123456789-_".toList

/-- Key generator of the api-key variant (generate_secure_api_key in
src/infra/lambdas/secret-rotation/api-key/index.py): the given number of
characters drawn by secrets.choice from the alphabet (the draws are the
oracle argument choice), with the identifying leading marker attached. -/
def generate_secure_api_key (choice : Nat → Char) (length : Nat) : String :=
  let api_key := String.mk ((List.range length).map choice)
  "aistudio_" ++ api_key

/-- Step 1 of the api-key variant (create_secret).  After the idempotence
guard, a fresh 64-character key is generated; the current payload keeps its
shape: a structured payload gets its apiKey field replaced, a plain-string
payload is replaced by the bare new key, and a missing current version leads
to a fresh one-field structured payload. -/
def create_secret (choice : Nat → Char) (token : String) (s : Store) : StepResult :=
  match get_secret_value s (some token) "AWSPENDING" with
  | some _ =>
      { store := s, err := none,
        ops := [.getSecretValue (some token) "AWSPENDING"], dbOps := [] }
  | none =>
    let new_api_key := generate_secure_api_key choice 64
    match get_secret_value s none "AWSCURRENT" with
    | some current =>
      let new_secret_string :=
        match current.parseJson with
        | some secret_dict =>
            SecretPayload.obj (setField secret_dict "apiKey" (.str new_api_key))
        | none => SecretPayload.raw new_api_key
      { store := put_secret_value s token new_secret_string, err := none,
        ops := [.getSecretValue (some token) "AWSPENDING",
                .getSecretValue none "AWSCURRENT",
                .putSecretValue token new_secret_string ["AWSPENDING"]],
        dbOps := [] }
    | none =>
      let new_secret_string := SecretPayload.obj [("apiKey", .str new_api_key)]
      { store := put_secret_value s token new_secret_string, err := none,
        ops := [.getSecretValue (some token) "AWSPENDING",
                .getSecretValue none "AWSCURRENT",
                .putSecretValue token new_secret_string ["AWSPENDING"]],
        dbOps := [] }

/-- Step 2 of the api-key variant (set_secret): a deliberate no-op, there is
no external system of record for a plain api key. -/
def set_secret (token : String) (s : Store) : StepResult :=
  { store := s, err := none, ops := [], dbOps := [] }

/-- Step 3 of the api-key variant (test_secret): extracts the api key (the
apiKey field of a structured payload, or the whole plain-string payload) and
checks it is present, non-empty and at least 32 characters long.  A falsy
extracted value or a short key raises
ValueError("API key is too short or empty"); a non-string non-falsy value
makes len() raise TypeError. -/
def test_secret (token : String) (s : Store) : StepResult :=
  match get_secret_value s (some token) "AWSPENDING" with
  | none =>
      { store := s, err := some .resourceNotFound,
        ops := [.getSecretValue (some token) "AWSPENDING"], dbOps := [] }
  | some pending =>
    let api_key : Option JsonValue :=
      match pending with
      | .obj secret_dict => lookupField secret_dict "apiKey"
      | .raw str => some (.str str)
    match api_key with
    | none =>
        { store := s, err := some (.valueError "API key is too short or empty"),
          ops := [.getSecretValue (some token) "AWSPENDING"], dbOps := [] }
    | some (.str a) =>
        if a = "" ∨ a.length < 32 then
          { store := s, err := some (.valueError "API key is too short or empty"),
            ops := [.getSecretValue (some token) "AWSPENDING"], dbOps := [] }
        else
          { store := s, err := none,
            ops := [.getSecretValue (some token) "AWSPENDING"], dbOps := [] }
    | some (.num n) =>
        if n = 0 then
          { store := s, err := some (.valueError "API key is too short or empty"),
            ops := [.getSecretValue (some token) "AWSPENDING"], dbOps := [] }
        else
          { store := s, err := some .typeError,
            ops := [.getSecretValue (some token) "AWSPENDING"], dbOps := [] }

/-- Step 4 of the api-key variant: textually identical to the database
variant's finish_secret in the source. -/
def finish_secret : String → Store → StepResult := DatabaseRotation.finish_secret

/-- Dispatch of the api-key variant handler. -/
def handler (choice : Nat → Char) (event : RotationRequest) (s : Store) : StepResult :=
  if event.step = "createSecret" then
    create_secret choice event.clientRequestToken s
  else if event.step = "setSecret" then
    set_secret event.clientRequestToken s
  else if event.step = "testSecret" then
    test_secret event.clientRequestToken s
  else if event.step = "finishSecret" then
    finish_secret event.clientRequestToken s
  else
    { store := s, err := some (.valueError ("Invalid step: " ++ event.step)),
      ops := [], dbOps := [] }

end ApiKeyRotation

namespace CustomRotation

/-- Step 3 of the custom variant (test_secret in
src/infra/lambdas/secret-rotation/custom/index.py): parses the pending
payload and checks only that the parsed dict is non-empty and has a value
field; there is no minimum-length check in this variant.  The source message
quotes the field name; the apostrophes are elided here. -/
def test_secret (token : String) (s : Store) : StepResult :=
  match get_secret_value s (some token) "AWSPENDING" with
  | none =>
      { store := s, err := some .resourceNotFound,
        ops := [.getSecretValue (some token) "AWSPENDING"], dbOps := [] }
  | some pending =>
    match pending.parseJson with
    | none =>
        { store := s, err := some .jsonDecodeError,
          ops := [.getSecretValue (some token) "AWSPENDING"], dbOps := [] }
    | some pending_dict =>
      if pending_dict.isEmpty ∨ (lookupField pending_dict "value").isNone then
        { store := s,
          err := some (.valueError "Custom secret missing required value field"),
          ops := [.getSecretValue (some token) "AWSPENDING"], dbOps := [] }
      else
        { store := s, err := none,
          ops := [.getSecretValue (some token) "AWSPENDING"], dbOps := [] }

/-- Step 4 of the custom variant: textually identical to the database
variant's finish_secret in the source. -/
def finish_secret : String → Store → StepResult := DatabaseRotation.finish_secret

end CustomRotation

namespace OauthRotation

/-- Step 1 of the oauth variant (create_secret in
src/infra/lambdas/secret-rotation/oauth/index.py).  The provider-specific
token refresh is an unimplemented placeholder: after the idempotence guard
the current payload is parsed and written back unchanged as the pending
version. -/
def create_secret (token : String) (s : Store) : StepResult :=
  match get_secret_value s (some token) "AWSPENDING" with
  | some _ =>
      { store := s, err := none,
        ops := [.getSecretValue (some token) "AWSPENDING"], dbOps := [] }
  | none =>
    match get_secret_value s none "AWSCURRENT" with
    | none =>
        { store := s, err := some .resourceNotFound,
          ops := [.getSecretValue (some token) "AWSPENDING",
                  .getSecretValue none "AWSCURRENT"], dbOps := [] }
    | some current =>
      match current.parseJson with
      | none =>
          { store := s, err := some .jsonDecodeError,
            ops := [.getSecretValue (some token) "AWSPENDING",
                    .getSecretValue none "AWSCURRENT"], dbOps := [] }
      | some secret_dict =>
          { store := put_secret_value s token (.obj secret_dict), err := none,
            ops := [.getSecretValue (some token) "AWSPENDING",
                    .getSecretValue none "AWSCURRENT",
                    .putSecretValue token (.obj secret_dict) ["AWSPENDING"]],
            dbOps := [] }

/-- Step 4 of the oauth variant: textually identical to the database
variant's finish_secret in the source. -/
def finish_secret : String → Store → StepResult := DatabaseRotation.finish_secret

end OauthRotation

namespace Remediation

/-- Access Analyzer finding as consumed by analyze_severity in
src/infra/lambda/iam-remediation/remediation.py: the fields the function
reads, plus the policy-related text carried along in the finding body. -/
structure Finding where
  resourceType : String
  findingType : String
  isPublic : Bool
  resource : String
  policyDocument : String
deriving DecidableEq

/-- Python str() rendering of a bool. -/
def pyBool (b : Bool) : String := if b then "True" else "False"

/-- Python str() rendering of the whole finding dict, in field order, as the
severity rule applies a substring test to it. -/
def strFinding (f : Finding) : String :=
  "\x7b" ++ "resourceType: " ++ f.resourceType ++
  ", findingType: " ++ f.findingType ++
  ", isPublic: " ++ pyBool f.isPublic ++
  ", resource: " ++ f.resource ++
  ", policyDocument: " ++ f.policyDocument ++ "\x7d"

/-- Substring test of Python, needle in haystack, over character lists. -/
def containsSub (needle hay : String) : Bool :=
  decide (List.IsInfix needle.toList hay.toList)

/-- Severity rule (analyze_severity): CRITICAL for public IAM roles or when
the text AdministratorAccess occurs anywhere in the stringified finding, then
HIGH for public S3 buckets or overly permissive findings, MEDIUM for
external access, LOW otherwise. -/
def analyze_severity (finding : Finding) : String :=
  if finding.resourceType = "AWS::IAM::Role" ∧ finding.isPublic then "CRITICAL"
  else if containsSub "AdministratorAccess" (strFinding finding) then "CRITICAL"
  else if finding.resourceType = "AWS::S3::Bucket" ∧ finding.isPublic then "HIGH"
  else if finding.findingType = "OverlyPermissive" then "HIGH"
  else if finding.findingType = "ExternalAccess" then "MEDIUM"
  else "LOW"

end Remediation

/-- Finding used to refute claim C8: not a public IAM role, policy text free
of administrator-access grants, finding type ExternalAccess, but the
resource ARN mentions AdministratorAccess, which the stringified-finding
substring test picks up. -/
def findingC8 : Remediation.Finding :=
  { resourceType := "AWS::SQS::Queue"
    findingType := "ExternalAccess"
    isPublic := false
    resource := "arn:aws:iam::123456789012:role/AdministratorAccess-Auditor"
    policyDocument := "" }

/-- Sample store with one structured current version holding database
credentials, shared by witnesses. -/
def dbSampleStore : Store :=
  [{ vid := "v1",
     payload := .obj [("username", .str "svc"), ("password", .str "old"),
                      ("host", .str "db"), ("port", .num 5432)],
     stages := ["AWSCURRENT"] }]

/-- Sample store that also carries a pending version for token t1, shared by
witnesses. -/
def dbSamplePendingStore : Store :=
  [{ vid := "v1",
     payload := .obj [("username", .str "svc"), ("password", .str "old"),
                      ("host", .str "db"), ("port", .num 5432)],
     stages := ["AWSCURRENT"] },
   { vid := "t1",
     payload := .obj [("username", .str "svc"), ("password", .str "new"),
                      ("host", .str "db"), ("port", .num 5432)],
     stages := ["AWSPENDING"] }]

/-- Sample 32-character password used by witnesses. -/
def samplePw32 : String := "Ax7kQ2mRping9ZbY4cLh8sVw0TuE6dNf"

/-- Sample store whose single current version holds a plain-string payload,
shared by witnesses. -/
def rawSampleStore : Store :=
  [{ vid := "v1", payload := SecretPayload.raw "oldkey", stages := ["AWSCURRENT"] }]

/-- Store whose pending version for token t1 holds a one-character custom
credential. -/
def customShortStore : Store :=
  [{ vid := "v1", payload := SecretPayload.obj [("value", JsonValue.str "oldvalue")],
     stages := ["AWSCURRENT"] },
   { vid := "t1", payload := SecretPayload.obj [("value", JsonValue.str "x")],
     stages := ["AWSPENDING"] }]

/-- Store whose pending version for token t1 lacks the apiKey field. -/
def missingKeyStore : Store :=
  [{ vid := "t1", payload := SecretPayload.obj [("other", JsonValue.str "y")],
     stages := ["AWSPENDING"] }]

/-- Store with a current version v1 and a pending version t1, at the point
where finish_secret is first invoked; shared by witnesses. -/
def finishSampleStore : Store := dbSamplePendingStore

/-- Name of one of the four protocol steps. -/
inductive StepName where
  | createSecret
  | setSecret
  | testSecret
  | finishSecret
deriving DecidableEq

/-- One step invocation of the database variant together with its external
oracles: the random password the store facility would return, and whether
the database connection attempt succeeds. -/
structure Invocation where
  step : StepName
  randPw : String
  connOk : Bool
deriving DecidableEq

/-- Run one step of the database variant for the single in-flight token. -/
def runStep (token : String) (inv : Invocation) (s : Store) : StepResult :=
  match inv.step with
  | .createSecret => DatabaseRotation.create_secret inv.randPw token s
  | .setSecret => DatabaseRotation.set_secret inv.connOk token s
  | .testSecret => DatabaseRotation.test_secret inv.connOk token s
  | .finishSecret => DatabaseRotation.finish_secret token s

/-- Run a sequence of step invocations, threading the store state, all under
the single in-flight token. -/
def runSeq (token : String) (invs : List Invocation) (s : Store) : Store :=
  match invs with
  | [] => s
  | inv :: rest => runSeq token rest (runStep token inv s).store

/-- Protocol invariant on the store: exactly one version labelled current,
at most one labelled pending. -/
abbrev RotationInvariant (s : Store) : Prop :=
  countStage s "AWSCURRENT" = 1 ∧ countStage s "AWSPENDING" ≤ 1

/-- Store with one current version holding an oauth token payload. -/
def oauthSampleStore : Store :=
  [{ vid := "v1",
     payload := SecretPayload.obj [("access_token", JsonValue.str "abc"),
                                   ("refresh_token", JsonValue.str "def")],
     stages := ["AWSCURRENT"] }]

/-- Pointwise congruence for countP over a mapped list. -/
theorem countP_map_congr {α β : Type} (l : List α) (f : α → β) (p : β → Bool) (q : α → Bool)
    (h : ∀ v ∈ l, p (f v) = q v) : (l.map f).countP p = l.countP q := by
  induction l with
  | nil => rfl
  | cons a t ih =>
      simp only [List.map_cons, List.countP_cons]
      rw [h a (by simp), ih (fun v hv => h v (by simp [hv]))]

/-- Pointwise congruence for countP. -/
theorem countP_congr_mem {α : Type} (l : List α) (p q : α → Bool)
    (h : ∀ v ∈ l, p v = q v) : l.countP p = l.countP q := by
  induction l with
  | nil => rfl
  | cons a t ih =>
      simp only [List.countP_cons]
      rw [h a (by simp), ih (fun v hv => h v (by simp [hv]))]

/-- Version ids of the filtered image of a store under a map that preserves
version ids, computed through the corresponding predicate on the original
store. -/
theorem filter_map_vids (l : Store) (g : SecretVersion → SecretVersion)
    (p q : SecretVersion → Bool)
    (hvid : ∀ v ∈ l, (g v).vid = v.vid)
    (hp : ∀ v ∈ l, p (g v) = q v) :
    ((l.map g).filter p).map SecretVersion.vid = (l.filter q).map SecretVersion.vid := by
  induction l with
  | nil => rfl
  | cons a t ih =>
      have ih2 := ih (fun v hv => hvid v (by simp [hv])) (fun v hv => hp v (by simp [hv]))
      simp only [List.map_cons, List.filter_cons]
      rw [hp a (by simp)]
      by_cases hq : q a = true
      · simp only [hq, if_true, List.map_cons, ih2, hvid a (by simp)]
      · simp only [Bool.not_eq_true] at hq
        simp only [hq, Bool.false_eq_true, if_false, ih2]

/-- Payload of the first version matched by a predicate, when every matched
version has the same payload and at least one version matches. -/
theorem find?_payload_eq (l : Store) (pred : SecretVersion → Bool) (p : SecretPayload)
    (hex : ∃ v ∈ l, pred v = true)
    (hall : ∀ v ∈ l, pred v = true → v.payload = p) :
    (l.find? pred).map (·.payload) = some p := by
  induction l with
  | nil => simp at hex
  | cons a t ih =>
      by_cases ha : pred a = true
      · rw [List.find?_cons_of_pos _ ha]
        simp [hall a (by simp) ha]
      · rw [List.find?_cons_of_neg _ (by simpa using ha)]
        rcases hex with ⟨v, hv, hpv⟩
        rcases List.mem_cons.mp hv with rfl | hvt
        · exact absurd hpv ha
        · exact ih ⟨v, hvt, hpv⟩ (fun w hw hpw => hall w (by simp [hw]) hpw)

/-- Members of a well-formed store with equal version ids are equal. -/
theorem vid_inj {s : Store} (hWF : StoreWF s) {v w : SecretVersion}
    (hv : v ∈ s) (hw : w ∈ s) (h : v.vid = w.vid) : v = w :=
  List.inj_on_of_nodup_map hWF hv hw h

/-- A store with stage-label count one has a singleton filter on that label. -/
theorem filter_eq_single_of_countStage {s : Store} {st : String}
    (h : countStage s st = 1) :
    ∃ x, s.filter (fun v => v.stages.contains st) = [x] := by
  rw [countStage, List.countP_eq_length_filter] at h
  exact List.length_eq_one.mp h

/-- From a singleton filter on a stage label in a well-formed store: the
holder is a member carrying the label, and carrying the label is equivalent
to having the holder's version id. -/
theorem char_of_filter_single {s : Store} {st : String} {x : SecretVersion}
    (hWF : StoreWF s)
    (hf : s.filter (fun v => v.stages.contains st) = [x]) :
    x ∈ s ∧ x.stages.contains st = true ∧
      ∀ v ∈ s, v.stages.contains st = (v.vid == x.vid) := by
  have hx : x ∈ s.filter (fun v => v.stages.contains st) := by rw [hf]; simp
  have hmem := (List.mem_filter.mp hx).1
  have hst := (List.mem_filter.mp hx).2
  refine ⟨hmem, hst, fun v hv => ?_⟩
  by_cases hvx : v.vid = x.vid
  · have hvx2 : v = x := vid_inj hWF hv hmem hvx
    subst hvx2
    simp only [beq_self_eq_true]
    exact hst
  · cases hcc : v.stages.contains st
    · simp [hvx]
    · exfalso
      have hvf : v ∈ s.filter (fun v => v.stages.contains st) :=
        List.mem_filter.mpr ⟨hv, hcc⟩
      rw [hf] at hvf
      simp only [List.mem_singleton] at hvf
      exact hvx (by rw [hvf])

/-- Version ids of the versions holding a stage label, when holding the label
is equivalent to having a given version id present in a well-formed store. -/
theorem stageHolders_of_char {l : Store} {st t : String}
    (hch : ∀ v ∈ l, v.stages.contains st = (v.vid == t))
    (hnd : (l.map SecretVersion.vid).Nodup)
    (hex : ∃ v ∈ l, v.vid = t) :
    stageHolders l st = [t] := by
  induction l with
  | nil => simp at hex
  | cons a tl ih =>
      simp only [List.map_cons, List.nodup_cons] at hnd
      by_cases hat : a.vid = t
      · have h1 : a.stages.contains st = true := by
          rw [hch a (by simp)]; simp [hat]
        have h2 : ∀ v ∈ tl, v.stages.contains st = false := by
          intro v hv
          rw [hch v (by simp [hv])]
          have : v.vid ≠ t := by
            intro hvt
            exact hnd.1 (by
              rw [hat, ← hvt]
              exact List.mem_map_of_mem SecretVersion.vid hv)
          simp [this]
        simp only [stageHolders, List.filter_cons, h1, if_true, List.map_cons, hat]
        have : tl.filter (fun v => v.stages.contains st) = [] :=
          List.filter_eq_nil_iff.mpr (by intro v hv; rw [h2 v hv]; simp)
        rw [this]
        rfl
      · have h1 : a.stages.contains st = false := by
          rw [hch a (by simp)]; simp [hat]
        have hex2 : ∃ v ∈ tl, v.vid = t := by
          rcases hex with ⟨v, hv, hvt⟩
          rcases List.mem_cons.mp hv with rfl | hvtl
          · exact absurd hvt hat
          · exact ⟨v, hvtl, hvt⟩
        simp only [stageHolders, List.filter_cons, h1]
        simpa [stageHolders] using ih (fun v hv => hch v (by simp [hv])) hnd.2 hex2


/-- A stage list with a label filtered out does not contain that label. -/
theorem contains_filter_stage_self (l : List String) (st : String) :
    (l.filter (fun x => x ≠ st)).contains st = false := by
  simp

/-- Filtering one label out of a stage list leaves every other label. -/
theorem contains_filter_stage_other (l : List String) {st st' : String} (h : st' ≠ st) :
    (l.filter (fun x => x ≠ st)).contains st' = l.contains st' := by
  simp [h]

/-- Appending a label to a stage list makes it contained. -/
theorem contains_append_self (l : List String) (st : String) :
    (l ++ [st]).contains st = true := by
  simp

/-- Appending one label to a stage list leaves every other label unchanged. -/
theorem contains_append_other (l : List String) {st st' : String} (h : st' ≠ st) :
    (l ++ [st]).contains st' = l.contains st' := by
  simp [h]

/-- countP of an everywhere-false predicate. -/
theorem countP_zero_of_all_false {α : Type} (l : List α) (p : α → Bool)
    (h : ∀ a ∈ l, p a = false) : l.countP p = 0 := by
  rw [List.countP_eq_zero]
  intro a ha
  simp [h a ha]

/-- countP of a predicate equivalent to bearing one version id present in a
store with unique version ids. -/
theorem countP_eq_one_of_char {l : Store} {pr : SecretVersion → Bool} {t : String}
    (hch : ∀ v ∈ l, pr v = (v.vid == t))
    (hnd : (l.map SecretVersion.vid).Nodup)
    (hex : ∃ v ∈ l, v.vid = t) :
    l.countP pr = 1 := by
  rw [countP_congr_mem l pr (fun v => v.vid == t) hch]
  have h1 : l.countP (fun v => v.vid == t) = (l.map SecretVersion.vid).countP (· == t) := by
    rw [List.countP_map]
    rfl
  rw [h1, ← List.count_eq_countP]
  rcases hex with ⟨v, hv, hvt⟩
  exact List.count_eq_one_of_mem hnd (hvt ▸ List.mem_map_of_mem SecretVersion.vid hv)

/-- Version ids after detaching a stage label everywhere. -/
theorem removeStageAll_vids (s : Store) (st : String) :
    (removeStageAll s st).map SecretVersion.vid = s.map SecretVersion.vid := by
  simp [removeStageAll, List.map_map]

/-- No version carries a stage label after it is detached everywhere. -/
theorem countStage_removeStageAll_self (s : Store) (st : String) :
    countStage (removeStageAll s st) st = 0 := by
  unfold countStage removeStageAll
  exact (countP_map_congr s
    (fun v => { v with stages := v.stages.filter (fun x => x ≠ st) })
    (fun v => v.stages.contains st) (fun _ => false)
    (fun v _ => contains_filter_stage_self v.stages st)).trans
    (countP_zero_of_all_false s _ (fun _ _ => rfl))

/-- Other stage labels are untouched when one label is detached everywhere. -/
theorem countStage_removeStageAll_other (s : Store) {st st' : String} (h : st' ≠ st) :
    countStage (removeStageAll s st) st' = countStage s st' := by
  unfold countStage removeStageAll
  exact countP_map_congr s
    (fun v => { v with stages := v.stages.filter (fun x => x ≠ st) })
    (fun v => v.stages.contains st') (fun v => v.stages.contains st')
    (fun v _ => contains_filter_stage_other v.stages h)

/-- Version id multiset facts of a put: in the overwrite branch the version
ids are unchanged, in the create branch the token id is appended. -/
theorem put_vids (s : Store) (token : String) (p : SecretPayload) :
    (put_secret_value s token p).map SecretVersion.vid = s.map SecretVersion.vid ∨
    ((put_secret_value s token p).map SecretVersion.vid
        = s.map SecretVersion.vid ++ [token] ∧
      ∀ v ∈ s, v.vid ≠ token) := by
  unfold put_secret_value
  by_cases hany : (removeStageAll s "AWSPENDING").any (fun v => v.vid == token) = true
  · left
    simp only [hany, if_true, List.map_map]
    rw [← removeStageAll_vids s "AWSPENDING"]
    apply List.map_congr_left
    intro v _
    by_cases hv : v.vid = token <;> simp [hv]
  · right
    simp only [hany, Bool.false_eq_true, if_false]
    constructor
    · rw [List.map_append, removeStageAll_vids]
      rfl
    · intro v hv hvt
      apply hany
      rw [List.any_eq_true]
      refine ⟨{ v with stages := v.stages.filter (fun x => x ≠ "AWSPENDING") }, ?_, by simp [hvt]⟩
      unfold removeStageAll
      exact List.mem_map_of_mem _ hv

/-- Well-formedness is preserved by a put. -/
theorem StoreWF_put {s : Store} (hWF : StoreWF s) (token : String) (p : SecretPayload) :
    StoreWF (put_secret_value s token p) := by
  rcases put_vids s token p with h | ⟨h, hfresh⟩
  · rw [StoreWF, h]; exact hWF
  · rw [StoreWF, h]
    rw [List.nodup_append]
    refine ⟨hWF, List.nodup_singleton token, ?_⟩
    intro a ha hb
    simp only [List.mem_singleton] at hb
    subst hb
    rcases List.mem_map.mp ha with ⟨v, hv, hvt⟩
    exact hfresh v hv hvt

/-- No version carries the pending label once it is detached everywhere. -/
theorem mem_removeStageAll_contains {s : Store} {st : String} {v : SecretVersion}
    (hv : v ∈ removeStageAll s st) : v.stages.contains st = false := by
  rcases List.mem_map.mp hv with ⟨w, _, rfl⟩
  exact contains_filter_stage_self w.stages st

/-- After a put, carrying the pending label is equivalent to being the token
version. -/
theorem put_pending_char (s : Store) (token : String) (p : SecretPayload) :
    ∀ v ∈ put_secret_value s token p,
      v.stages.contains "AWSPENDING" = (v.vid == token) := by
  intro v hv
  unfold put_secret_value at hv
  by_cases hany : (removeStageAll s "AWSPENDING").any (fun v => v.vid == token) = true
  · simp only [hany, if_true] at hv
    rcases List.mem_map.mp hv with ⟨w, hw, rfl⟩
    by_cases hwt : w.vid = token
    · simp only [hwt, beq_self_eq_true, if_true]
      simp [contains_append_self]
    · simp only [beq_eq_false_iff_ne.mpr hwt, Bool.false_eq_true, if_false]
      rw [mem_removeStageAll_contains hw]
  · simp only [hany, Bool.false_eq_true, if_false] at hv
    rcases List.mem_append.mp hv with hv0 | hv1
    · rw [mem_removeStageAll_contains hv0]
      have : v.vid ≠ token := by
        intro he
        exact hany (List.any_eq_true.mpr ⟨v, hv0, by simp [he]⟩)
      simp [this]
    · simp only [List.mem_singleton] at hv1
      subst hv1
      simp

/-- After a put, the token version carries the supplied payload. -/
theorem put_payload_token (s : Store) (token : String) (p : SecretPayload) :
    ∀ v ∈ put_secret_value s token p, v.vid = token → v.payload = p := by
  intro v hv hvt
  unfold put_secret_value at hv
  by_cases hany : (removeStageAll s "AWSPENDING").any (fun v => v.vid == token) = true
  · simp only [hany, if_true] at hv
    rcases List.mem_map.mp hv with ⟨w, _, rfl⟩
    by_cases hwt : w.vid = token
    · simp [hwt]
    · simp only [beq_eq_false_iff_ne.mpr hwt, Bool.false_eq_true, if_false] at hvt ⊢
      exact absurd hvt hwt
  · simp only [hany, Bool.false_eq_true, if_false] at hv
    rcases List.mem_append.mp hv with hv0 | hv1
    · exact absurd (List.any_eq_true.mpr ⟨v, hv0, by simp [hvt]⟩) hany
    · simp only [List.mem_singleton] at hv1
      subst hv1
      rfl

/-- After a put, a token version exists. -/
theorem put_mem_token (s : Store) (token : String) (p : SecretPayload) :
    ∃ v ∈ put_secret_value s token p, v.vid = token := by
  unfold put_secret_value
  by_cases hany : (removeStageAll s "AWSPENDING").any (fun v => v.vid == token) = true
  · simp only [hany, if_true]
    rcases List.any_eq_true.mp hany with ⟨w, hw, hwt⟩
    simp only [beq_iff_eq] at hwt
    refine ⟨{ w with payload := p, stages := w.stages ++ ["AWSPENDING"] }, ?_, hwt⟩
    rw [List.mem_map]
    exact ⟨w, hw, by simp [hwt]⟩
  · simp only [hany, Bool.false_eq_true, if_false]
    exact ⟨{ vid := token, payload := p, stages := ["AWSPENDING"] }, by simp, rfl⟩

/-- A put changes the count of no stage label other than the pending one. -/
theorem countStage_put_other (s : Store) (token : String) (p : SecretPayload)
    {st : String} (h : st ≠ "AWSPENDING") :
    countStage (put_secret_value s token p) st = countStage s st := by
  unfold put_secret_value
  by_cases hany : (removeStageAll s "AWSPENDING").any (fun v => v.vid == token) = true
  · simp only [hany, if_true]
    have h1 : countStage ((removeStageAll s "AWSPENDING").map (fun v =>
        if v.vid == token then
          { v with payload := p, stages := v.stages ++ ["AWSPENDING"] }
        else v)) st = countStage (removeStageAll s "AWSPENDING") st := by
      unfold countStage
      apply countP_map_congr
      intro v _
      by_cases hvt : v.vid = token
      · simp only [hvt, beq_self_eq_true, if_true]
        exact contains_append_other v.stages h
      · simp [beq_eq_false_iff_ne.mpr hvt]
    exact h1.trans (countStage_removeStageAll_other s h)
  · simp only [hany, Bool.false_eq_true, if_false]
    unfold countStage
    rw [List.countP_append]
    have h2 : List.countP (fun v => v.stages.contains st)
        [({ vid := token, payload := p, stages := ["AWSPENDING"] } : SecretVersion)] = 0 := by
      simp [List.countP_cons, h]
    rw [h2]
    exact (Nat.add_zero _).trans (countStage_removeStageAll_other s h)

/-- After a put on a well-formed store, exactly one version is pending. -/
theorem countStage_put_pending {s : Store} (hWF : StoreWF s) (token : String)
    (p : SecretPayload) :
    countStage (put_secret_value s token p) "AWSPENDING" = 1 :=
  countP_eq_one_of_char (put_pending_char s token p) (StoreWF_put hWF token p)
    (put_mem_token s token p)

/-- After a put, reading the pending version under the token returns the
supplied payload. -/
theorem get_put_pending (s : Store) (token : String) (p : SecretPayload) :
    get_secret_value (put_secret_value s token p) (some token) "AWSPENDING" = some p := by
  unfold get_secret_value
  apply find?_payload_eq
  · rcases put_mem_token s token p with ⟨v, hv, hvt⟩
    refine ⟨v, hv, ?_⟩
    rw [put_pending_char s token p v hv]
    simp [hvt]
  · intro v hv hpred
    simp only [Bool.and_eq_true, beq_iff_eq] at hpred
    exact put_payload_token s token p v hv hpred.1

/-- First version matched by a predicate equivalent to bearing a version id,
when such a version exists. -/
theorem find?_char {l : Store} {pr : SecretVersion → Bool} {t : String}
    (hch : ∀ v ∈ l, pr v = (v.vid == t))
    (hex : ∃ v ∈ l, v.vid = t) :
    ∃ w, l.find? pr = some w ∧ w.vid = t := by
  induction l with
  | nil => simp at hex
  | cons a tl ih =>
      by_cases hat : a.vid = t
      · have : pr a = true := by rw [hch a (by simp)]; simp [hat]
        exact ⟨a, List.find?_cons_of_pos _ this, hat⟩
      · have hpra : pr a = false := by rw [hch a (by simp)]; simp [hat]
        have hex2 : ∃ v ∈ tl, v.vid = t := by
          rcases hex with ⟨v, hv, hvt⟩
          rcases List.mem_cons.mp hv with rfl | hvtl
          · exact absurd hvt hat
          · exact ⟨v, hvtl, hvt⟩
        rcases ih (fun v hv => hch v (by simp [hv])) hex2 with ⟨w, hw, hwt⟩
        exact ⟨w, by rw [List.find?_cons_of_neg _ (by simp [hpra])]; exact hw, hwt⟩

/-- A successful label move requires the destination version to exist and
rewrites the store pointwise. -/
theorem update_eq_ok {s s1 : Store} {st mv : String} {rf : Option String}
    (h : update_secret_version_stage s st mv rf = .ok s1) :
    (∃ v ∈ s, v.vid = mv) ∧
    s1 = s.map (fun v =>
      if v.vid == mv then
        { v with stages := v.stages.filter (fun x => x ≠ st) ++ [st] }
      else if rf = some v.vid then
        { v with stages := v.stages.filter (fun x => x ≠ st) }
      else v) := by
  unfold update_secret_version_stage at h
  by_cases hany : s.any (fun v => v.vid == mv) = true
  · simp only [hany, if_true] at h
    constructor
    · rcases List.any_eq_true.mp hany with ⟨v, hv, hvm⟩
      exact ⟨v, hv, by simpa using hvm⟩
    · exact (Except.ok.inj h).symm
  · simp only [hany, Bool.false_eq_true, if_false] at h
    exact absurd h (by simp)

/-- A failed label move happens exactly when the destination version is
absent. -/
theorem update_eq_error {s : Store} {st mv : String} {rf : Option String} {e : RotationError}
    (h : update_secret_version_stage s st mv rf = .error e) :
    e = .invalidRequest ∧ ∀ v ∈ s, v.vid ≠ mv := by
  unfold update_secret_version_stage at h
  by_cases hany : s.any (fun v => v.vid == mv) = true
  · simp [hany] at h
  · simp only [hany, Bool.false_eq_true, if_false, Except.error.injEq] at h
    refine ⟨h.symm, fun v hv hvm => ?_⟩
    exact hany (List.any_eq_true.mpr ⟨v, hv, by simp [hvm]⟩)

/-- A label move preserves the version ids. -/
theorem update_vids {s s1 : Store} {st mv : String} {rf : Option String}
    (h : update_secret_version_stage s st mv rf = .ok s1) :
    s1.map SecretVersion.vid = s.map SecretVersion.vid := by
  rw [(update_eq_ok h).2, List.map_map]
  apply List.map_congr_left
  intro v _
  by_cases hvm : v.vid = mv
  · simp [Function.comp, hvm]
  · by_cases hrf : rf = some v.vid
    · simp [Function.comp, hvm, hrf]
    · simp [Function.comp, hvm, hrf]

/-- Every version after a successful move descends from a version of the
original store with the same id and payload. -/
theorem update_mem_decomp {s s1 : Store} {st mv : String} {rf : Option String}
    (h : update_secret_version_stage s st mv rf = .ok s1) :
    ∀ v ∈ s1, ∃ w ∈ s, v.vid = w.vid ∧ v.payload = w.payload := by
  intro v hv
  rw [(update_eq_ok h).2] at hv
  rcases List.mem_map.mp hv with ⟨w, hw, rfl⟩
  refine ⟨w, hw, ?_, ?_⟩ <;>
  · by_cases hvm : w.vid = mv
    · simp [hvm]
    · by_cases hrf : rf = some w.vid
      · simp [hvm, hrf]
      · simp [hvm, hrf]

/-- A label move preserves every payload, stated through a version-id token
characterisation. -/
theorem update_payload_char {s s1 : Store} {st mv : String} {rf : Option String}
    {t : String} {p : SecretPayload}
    (h : update_secret_version_stage s st mv rf = .ok s1)
    (hp : ∀ v ∈ s, v.vid = t → v.payload = p) :
    ∀ v ∈ s1, v.vid = t → v.payload = p := by
  intro v hv hvt
  rcases update_mem_decomp h v hv with ⟨w, hw, hvid, hpay⟩
  rw [hpay]
  exact hp w hw (by rw [← hvid, hvt])

/-- After a successful move of a label off its unique holder, bearing the
label is equivalent to being the destination version. -/
theorem update_char {s s1 : Store} {st mv c : String}
    (h : update_secret_version_stage s st mv (some c) = .ok s1)
    (hch : ∀ v ∈ s, v.stages.contains st = (v.vid == c)) :
    ∀ v ∈ s1, v.stages.contains st = (v.vid == mv) := by
  intro v hv
  rw [(update_eq_ok h).2] at hv
  rcases List.mem_map.mp hv with ⟨w, hw, rfl⟩
  by_cases hvm : w.vid = mv
  · simp only [hvm, beq_self_eq_true, if_true]
    simp [contains_append_self]
  · by_cases hrf : (some c : Option String) = some w.vid
    · simp only [beq_eq_false_iff_ne.mpr hvm, Bool.false_eq_true, if_false, hrf, if_true]
      rw [contains_filter_stage_self]
    · simp only [beq_eq_false_iff_ne.mpr hvm, Bool.false_eq_true, if_false, hrf, if_false]
      rw [hch w hw]
      have hne2 : w.vid ≠ c := fun he => hrf (by rw [he])
      simp [hne2]

/-- A label move changes the count of no other stage label. -/
theorem update_other_stage_count {s s1 : Store} {st st' mv : String} {rf : Option String}
    (h : update_secret_version_stage s st mv rf = .ok s1) (hne : st' ≠ st) :
    countStage s1 st' = countStage s st' := by
  rw [(update_eq_ok h).2]
  unfold countStage
  apply countP_map_congr
  intro v _
  by_cases hvm : v.vid = mv
  · simp only [hvm, beq_self_eq_true, if_true]
    rw [contains_append_other _ hne, contains_filter_stage_other _ hne]
  · by_cases hrf : rf = some v.vid
    · simp only [beq_eq_false_iff_ne.mpr hvm, Bool.false_eq_true, if_false, hrf, if_true]
      exact contains_filter_stage_other _ hne
    · simp [beq_eq_false_iff_ne.mpr hvm, hrf]

/-- The destination version still exists after a successful move. -/
theorem update_mem_mv {s s1 : Store} {st mv : String} {rf : Option String}
    (h : update_secret_version_stage s st mv rf = .ok s1) :
    ∃ v ∈ s1, v.vid = mv := by
  rcases (update_eq_ok h).1 with ⟨v, hv, hvm⟩
  have : v.vid ∈ s1.map SecretVersion.vid := by
    rw [update_vids h]
    exact List.mem_map_of_mem SecretVersion.vid hv
  rcases List.mem_map.mp this with ⟨w, hw, hwv⟩
  exact ⟨w, hw, by rw [hwv, hvm]⟩

/-- Replacing the bindings of one key leaves the first binding of any other
key unchanged. -/
theorem find?_map_setkey_other (t : List (String × JsonValue)) {k k' : String}
    (v : JsonValue) (h : k' ≠ k) :
    (t.map (fun p => if p.1 == k then (k, v) else p)).find? (fun p => p.1 == k') =
      t.find? (fun p => p.1 == k') := by
  induction t with
  | nil => rfl
  | cons a t ih =>
      by_cases ha : a.1 = k
      · rw [List.map_cons,
          show (if (a.1 == k) = true then (k, v) else a) = (k, v) by simp [ha]]
        rw [List.find?_cons_of_neg _ (by simp [Ne.symm h]),
          List.find?_cons_of_neg _ (by simp [ha, Ne.symm h])]
        exact ih
      · rw [List.map_cons,
          show (if (a.1 == k) = true then (k, v) else a) = a by simp [ha]]
        by_cases hak' : a.1 = k'
        · rw [List.find?_cons_of_pos _ (by simp [hak']),
            List.find?_cons_of_pos _ (by simp [hak'])]
        · rw [List.find?_cons_of_neg _ (by simp [hak']),
            List.find?_cons_of_neg _ (by simp [hak'])]
          exact ih

/-- Replacing the bindings of a present key makes the new binding the first
one found under that key. -/
theorem find?_map_setkey_self (t : List (String × JsonValue)) (k : String) (v : JsonValue)
    (hany : t.any (fun p => p.1 == k) = true) :
    (t.map (fun p => if p.1 == k then (k, v) else p)).find? (fun p => p.1 == k)
      = some (k, v) := by
  induction t with
  | nil => simp at hany
  | cons a t ih =>
      by_cases ha : a.1 = k
      · rw [List.map_cons,
          show (if (a.1 == k) = true then (k, v) else a) = (k, v) by simp [ha]]
        rw [List.find?_cons_of_pos _ (by simp)]
      · rw [List.map_cons,
          show (if (a.1 == k) = true then (k, v) else a) = a by simp [ha]]
        rw [List.find?_cons_of_neg _ (by simp [ha])]
        apply ih
        rcases List.any_eq_true.mp hany with ⟨b, hb, hbk⟩
        rcases List.mem_cons.mp hb with rfl | hbt
        · exact absurd (by simpa using hbk) ha
        · exact List.any_eq_true.mpr ⟨b, hbt, hbk⟩

/-- Setting a dict field makes it the value looked up under that key. -/
theorem lookup_setField_self (fields : List (String × JsonValue)) (k : String)
    (v : JsonValue) : lookupField (setField fields k v) k = some v := by
  unfold setField
  by_cases hany : fields.any (fun p => p.1 == k) = true
  · simp only [hany, if_true]
    rw [lookupField, find?_map_setkey_self fields k v hany]
    rfl
  · simp only [hany, Bool.false_eq_true, if_false]
    rw [lookupField, List.find?_append]
    have h0 : fields.find? (fun p => p.1 == k) = none := by
      rw [List.find?_eq_none]
      intro p hp hpk
      exact hany (List.any_eq_true.mpr ⟨p, hp, hpk⟩)
    simp [h0]

/-- Setting one dict field leaves every other key unchanged. -/
theorem lookup_setField_other (fields : List (String × JsonValue)) {k k' : String}
    (v : JsonValue) (h : k' ≠ k) :
    lookupField (setField fields k v) k' = lookupField fields k' := by
  unfold setField
  by_cases hany : fields.any (fun p => p.1 == k) = true
  · simp only [hany, if_true]
    rw [lookupField, find?_map_setkey_other fields v h]
    rfl
  · simp only [hany, Bool.false_eq_true, if_false]
    rw [lookupField, lookupField, List.find?_append]
    by_cases hf : fields.find? (fun p => p.1 == k') = none
    · rw [hf]
      simp only [List.find?, Option.none_orElse]
      rw [beq_eq_false_iff_ne.mpr (Ne.symm h)]
      rfl
    · rcases Option.ne_none_iff_exists.mp hf with ⟨b, hb⟩
      rw [← hb]
      simp

set_option maxRecDepth 40000 in
/-- C8 counterexample: analyze_severity returns CRITICAL on a finding that is
neither a publicly accessible IAM role nor carries an administrator-access
grant in its policy text (the claim would force MEDIUM for this
ExternalAccess finding), because the source applies the substring test to
the stringification of the whole finding, resource ARN included. -/
theorem claim_C8_counterexample :
    Remediation.analyze_severity findingC8 = "CRITICAL" ∧
    ¬(findingC8.resourceType = "AWS::IAM::Role" ∧ findingC8.isPublic = true) ∧
    Remediation.containsSub "AdministratorAccess" findingC8.policyDocument = false ∧
    findingC8.findingType = "ExternalAccess" := by
  refine ⟨by decide, by decide, by decide, rfl⟩

/-- C8 amended: the severity rule classifies CRITICAL exactly for publicly
accessible IAM roles or findings whose whole stringified body (any field,
not only the policy text) mentions AdministratorAccess; among the remaining
findings, HIGH exactly for public S3 buckets or overly permissive findings,
MEDIUM exactly for external access, and LOW otherwise. -/
theorem claim_C8 (f : Remediation.Finding) :
    (Remediation.analyze_severity f = "CRITICAL" ↔
      ((f.resourceType = "AWS::IAM::Role" ∧ f.isPublic = true) ∨
        Remediation.containsSub "AdministratorAccess" (Remediation.strFinding f) = true)) ∧
    (Remediation.analyze_severity f = "HIGH" ↔
      (¬((f.resourceType = "AWS::IAM::Role" ∧ f.isPublic = true) ∨
          Remediation.containsSub "AdministratorAccess" (Remediation.strFinding f) = true) ∧
        ((f.resourceType = "AWS::S3::Bucket" ∧ f.isPublic = true) ∨
          f.findingType = "OverlyPermissive"))) ∧
    (Remediation.analyze_severity f = "MEDIUM" ↔
      (¬((f.resourceType = "AWS::IAM::Role" ∧ f.isPublic = true) ∨
          Remediation.containsSub "AdministratorAccess" (Remediation.strFinding f) = true) ∧
        ¬((f.resourceType = "AWS::S3::Bucket" ∧ f.isPublic = true) ∨
          f.findingType = "OverlyPermissive") ∧
        f.findingType = "ExternalAccess")) ∧
    (Remediation.analyze_severity f = "LOW" ↔
      (¬((f.resourceType = "AWS::IAM::Role" ∧ f.isPublic = true) ∨
          Remediation.containsSub "AdministratorAccess" (Remediation.strFinding f) = true) ∧
        ¬((f.resourceType = "AWS::S3::Bucket" ∧ f.isPublic = true) ∨
          f.findingType = "OverlyPermissive") ∧
        f.findingType ≠ "ExternalAccess")) := by
  unfold Remediation.analyze_severity
  split_ifs with h1 h2 h3 h4 h5 <;>
    simp_all

/-- C4: a request whose step is none of the four canonical names makes both
the database and the api-key handler fail with the invalid-step error before
any store read or write: the result carries the unchanged store, the
ValueError, and empty store and database operation traces. -/
theorem claim_C4 (event : RotationRequest) (s : Store) (randPw : String) (connOk : Bool)
    (choice : Nat → Char)
    (h : event.step ∉
      (["createSecret", "setSecret", "testSecret", "finishSecret"] : List String)) :
    DatabaseRotation.handler randPw connOk event s =
      { store := s, err := some (.valueError ("Invalid step: " ++ event.step)),
        ops := [], dbOps := [] } ∧
    ApiKeyRotation.handler choice event s =
      { store := s, err := some (.valueError ("Invalid step: " ++ event.step)),
        ops := [], dbOps := [] } := by
  simp only [List.mem_cons, List.not_mem_nil, or_false, not_or] at h
  obtain ⟨h1, h2, h3, h4⟩ := h
  constructor
  · unfold DatabaseRotation.handler
    rw [if_neg h1, if_neg h2, if_neg h3, if_neg h4]
  · unfold ApiKeyRotation.handler
    rw [if_neg h1, if_neg h2, if_neg h3, if_neg h4]

/-- C4 witness: the concrete step rotateSecret on an empty store. -/
theorem claim_C4_witness :
    (("rotateSecret" : String) ∉
      (["createSecret", "setSecret", "testSecret", "finishSecret"] : List String)) ∧
    DatabaseRotation.handler "pw" true
        { secretId := "arn:aws:secretsmanager:us-west-2:1:secret:db",
          clientRequestToken := "t1", step := "rotateSecret" } [] =
      { store := [], err := some (.valueError ("Invalid step: " ++ "rotateSecret")),
        ops := [], dbOps := [] } :=
  ⟨by decide,
    (claim_C4
      { secretId := "arn:aws:secretsmanager:us-west-2:1:secret:db",
        clientRequestToken := "t1", step := "rotateSecret" }
      [] "pw" true (fun _ => 'a') (by decide)).1⟩

/-- C7: on the success path of the database set_secret, the statement issued
to the target database is literally the concatenation of ALTER USER, the
username taken from the pending payload without any sanitisation, and the
placeholder clause, with the password as the only bound parameter; the
connection is opened with the current payload. -/
theorem claim_C7 (s : Store) (token u pw : String)
    (pending_dict current_dict : List (String × JsonValue))
    (hp : get_secret_value s (some token) "AWSPENDING" = some (.obj pending_dict))
    (hc : get_secret_value s none "AWSCURRENT" = some (.obj current_dict))
    (hu : lookupField pending_dict "username" = some (.str u))
    (hpw : lookupField pending_dict "password" = some (.str pw)) :
    (DatabaseRotation.set_secret true token s).dbOps =
      [.connect current_dict,
       .execute ("ALTER USER " ++ u ++ " WITH PASSWORD %s") [.str pw],
       .commit] ∧
    (DatabaseRotation.set_secret true token s).err = none ∧
    (DatabaseRotation.set_secret true token s).store = s := by
  unfold DatabaseRotation.set_secret
  rw [hp]
  simp only [SecretPayload.parseJson]
  rw [hc]
  simp only [SecretPayload.parseJson, if_true]
  rw [hu, hpw]
  exact ⟨rfl, rfl, rfl⟩

/-- C7 witness: the concrete pending payload of dbSamplePendingStore. -/
theorem claim_C7_witness :
    get_secret_value dbSamplePendingStore (some "t1") "AWSPENDING" =
      some (.obj [("username", .str "svc"), ("password", .str "new"),
                  ("host", .str "db"), ("port", .num 5432)]) ∧
    (DatabaseRotation.set_secret true "t1" dbSamplePendingStore).dbOps =
      [.connect [("username", .str "svc"), ("password", .str "old"),
                 ("host", .str "db"), ("port", .num 5432)],
       .execute ("ALTER USER " ++ "svc" ++ " WITH PASSWORD %s") [.str "new"],
       .commit] :=
  ⟨by decide,
    (claim_C7 dbSamplePendingStore "t1" "svc" "new"
      [("username", .str "svc"), ("password", .str "new"),
       ("host", .str "db"), ("port", .num 5432)]
      [("username", .str "svc"), ("password", .str "old"),
       ("host", .str "db"), ("port", .num 5432)]
      (by decide) (by decide) (by decide) (by decide)).1⟩

/-- C5: when no pending version exists for the token and a structured
current version exists, the database create_secret requests a 32-character
password from the store, succeeds, and writes a pending payload that agrees
with the current payload on every field except password, which now holds
the freshly generated password (of length 32 by the store contract on the
requested length). -/
theorem claim_C5 (s : Store) (token randPw : String) (fields : List (String × JsonValue))
    (hnp : get_secret_value s (some token) "AWSPENDING" = none)
    (hcur : get_secret_value s none "AWSCURRENT" = some (.obj fields))
    (hlen : randPw.length = 32) :
    (DatabaseRotation.create_secret randPw token s).err = none ∧
    StoreOp.getRandomPassword 32 ∈ (DatabaseRotation.create_secret randPw token s).ops ∧
    get_secret_value (DatabaseRotation.create_secret randPw token s).store
        (some token) "AWSPENDING"
      = some (.obj (setField fields "password" (.str randPw))) ∧
    lookupField (setField fields "password" (.str randPw)) "password"
      = some (.str randPw) ∧
    (∀ k, k ≠ "password" →
      lookupField (setField fields "password" (.str randPw)) k = lookupField fields k) ∧
    randPw.length = 32 := by
  have hred : DatabaseRotation.create_secret randPw token s =
      { store := put_secret_value s token
          (.obj (setField fields "password" (.str randPw))),
        err := none,
        ops := [.getSecretValue (some token) "AWSPENDING",
                .getSecretValue none "AWSCURRENT",
                .getRandomPassword 32,
                .putSecretValue token (.obj (setField fields "password" (.str randPw)))
                  ["AWSPENDING"]],
        dbOps := [] } := by
    unfold DatabaseRotation.create_secret
    rw [hnp, hcur]
    rfl
  rw [hred]
  refine ⟨rfl, by simp, get_put_pending s token _, lookup_setField_self fields _ _,
    fun k hk => lookup_setField_other fields _ hk, hlen⟩

/-- C5 witness: concrete rotation of dbSampleStore under token t1. -/
theorem claim_C5_witness :
    get_secret_value dbSampleStore (some "t1") "AWSPENDING" = none ∧
    get_secret_value dbSampleStore none "AWSCURRENT" =
      some (.obj [("username", .str "svc"), ("password", .str "old"),
                  ("host", .str "db"), ("port", .num 5432)]) ∧
    samplePw32.length = 32 ∧
    get_secret_value (DatabaseRotation.create_secret samplePw32 "t1" dbSampleStore).store
        (some "t1") "AWSPENDING"
      = some (.obj (setField
          [("username", .str "svc"), ("password", .str "old"),
           ("host", .str "db"), ("port", .num 5432)] "password" (.str samplePw32))) :=
  ⟨by decide, by decide, by decide,
    (claim_C5 dbSampleStore "t1" samplePw32
      [("username", .str "svc"), ("password", .str "old"),
       ("host", .str "db"), ("port", .num 5432)]
      (by decide) (by decide) (by decide)).2.2.1⟩

/-- C1: from a well-formed store with no pending version under the token and
a structured current payload, the first create_secret call succeeds and
writes the pending version; the second call with the same token (fresh
randomness) returns success immediately after the single pending-version
read, with no further store call and the store unchanged, so exactly one
pending version exists afterwards and its payload is the one the first call
wrote.  Both the database and the api-key variant are covered. -/
theorem claim_C1 (s : Store) (token randPw randPw2 : String) (choice choice2 : Nat → Char)
    (fields : List (String × JsonValue))
    (hWF : StoreWF s)
    (hnp : get_secret_value s (some token) "AWSPENDING" = none)
    (hcur : get_secret_value s none "AWSCURRENT" = some (.obj fields)) :
    ((DatabaseRotation.create_secret randPw token s).err = none ∧
     DatabaseRotation.create_secret randPw2 token
         (DatabaseRotation.create_secret randPw token s).store =
       { store := (DatabaseRotation.create_secret randPw token s).store,
         err := none,
         ops := [.getSecretValue (some token) "AWSPENDING"], dbOps := [] } ∧
     get_secret_value (DatabaseRotation.create_secret randPw token s).store
         (some token) "AWSPENDING"
       = some (.obj (setField fields "password" (.str randPw))) ∧
     countStage (DatabaseRotation.create_secret randPw token s).store "AWSPENDING" = 1) ∧
    ((ApiKeyRotation.create_secret choice token s).err = none ∧
     ApiKeyRotation.create_secret choice2 token
         (ApiKeyRotation.create_secret choice token s).store =
       { store := (ApiKeyRotation.create_secret choice token s).store,
         err := none,
         ops := [.getSecretValue (some token) "AWSPENDING"], dbOps := [] } ∧
     get_secret_value (ApiKeyRotation.create_secret choice token s).store
         (some token) "AWSPENDING"
       = some (.obj (setField fields "apiKey"
           (.str (ApiKeyRotation.generate_secure_api_key choice 64)))) ∧
     countStage (ApiKeyRotation.create_secret choice token s).store "AWSPENDING" = 1) := by
  have hredDB : DatabaseRotation.create_secret randPw token s =
      { store := put_secret_value s token
          (.obj (setField fields "password" (.str randPw))),
        err := none,
        ops := [.getSecretValue (some token) "AWSPENDING",
                .getSecretValue none "AWSCURRENT",
                .getRandomPassword 32,
                .putSecretValue token (.obj (setField fields "password" (.str randPw)))
                  ["AWSPENDING"]],
        dbOps := [] } := by
    unfold DatabaseRotation.create_secret
    rw [hnp, hcur]
    rfl
  have hredAK : ApiKeyRotation.create_secret choice token s =
      { store := put_secret_value s token
          (.obj (setField fields "apiKey"
            (.str (ApiKeyRotation.generate_secure_api_key choice 64)))),
        err := none,
        ops := [.getSecretValue (some token) "AWSPENDING",
                .getSecretValue none "AWSCURRENT",
                .putSecretValue token
                  (.obj (setField fields "apiKey"
                    (.str (ApiKeyRotation.generate_secure_api_key choice 64))))
                  ["AWSPENDING"]],
        dbOps := [] } := by
    unfold ApiKeyRotation.create_secret
    rw [hnp, hcur]
    rfl
  constructor
  · rw [hredDB]
    refine ⟨rfl, ?_, get_put_pending s token _, countStage_put_pending hWF token _⟩
    unfold DatabaseRotation.create_secret
    rw [get_put_pending s token (.obj (setField fields "password" (.str randPw)))]
  · rw [hredAK]
    refine ⟨rfl, ?_, get_put_pending s token _, countStage_put_pending hWF token _⟩
    unfold ApiKeyRotation.create_secret
    rw [get_put_pending s token (.obj (setField fields "apiKey"
      (.str (ApiKeyRotation.generate_secure_api_key choice 64))))]

/-- C1 witness: both variants on the concrete dbSampleStore with token t1. -/
theorem claim_C1_witness :
    StoreWF dbSampleStore ∧
    get_secret_value dbSampleStore (some "t1") "AWSPENDING" = none ∧
    (DatabaseRotation.create_secret samplePw32 "t1" dbSampleStore).err = none ∧
    (ApiKeyRotation.create_secret (fun _ => 'a') "t1" dbSampleStore).err = none :=
  ⟨by decide, by decide,
    ((claim_C1 dbSampleStore "t1" samplePw32 "other" (fun _ => 'a') (fun _ => 'b')
      [("username", .str "svc"), ("password", .str "old"),
       ("host", .str "db"), ("port", .num 5432)]
      (by decide) (by decide) (by decide)).1).1,
    ((claim_C1 dbSampleStore "t1" samplePw32 "other" (fun _ => 'a') (fun _ => 'b')
      [("username", .str "svc"), ("password", .str "old"),
       ("host", .str "db"), ("port", .num 5432)]
      (by decide) (by decide) (by decide)).2).1⟩

/-- Length of a generated api key: the 9-character marker plus the requested
number of drawn characters. -/
theorem generate_secure_api_key_length (choice : Nat → Char) (n : Nat) :
    (ApiKeyRotation.generate_secure_api_key choice n).length = 9 + n := by
  unfold ApiKeyRotation.generate_secure_api_key
  rw [String.length_append]
  rw [show ("aistudio_" : String).length = 9 from by decide]
  simp [String.length]

/-- Character decomposition of a generated api key. -/
theorem generate_secure_api_key_toList (choice : Nat → Char) (n : Nat) :
    (ApiKeyRotation.generate_secure_api_key choice n).toList =
      "aistudio_".toList ++ (List.range n).map choice := by
  unfold ApiKeyRotation.generate_secure_api_key
  simp [String.toList, String.data_append]

/-- C9: whenever the api-key create_secret actually writes (no pending
version existed under the token), the written payload passes test_secret
with the same token: the generated key is the 9-character marker plus 64
drawn alphabet characters, 73 characters in total, at least the 32-character
minimum, and both written shapes (apiKey field of a structured payload, or
the whole plain-string payload) are accepted by the extraction in
test_secret. -/
theorem claim_C9 (s : Store) (token : String) (choice : Nat → Char)
    (hal : ∀ n, choice n ∈ ApiKeyRotation.keyAlphabet)
    (hnp : get_secret_value s (some token) "AWSPENDING" = none) :
    (ApiKeyRotation.create_secret choice token s).err = none ∧
    (ApiKeyRotation.generate_secure_api_key choice 64).length = 73 ∧
    32 ≤ (ApiKeyRotation.generate_secure_api_key choice 64).length ∧
    (ApiKeyRotation.generate_secure_api_key choice 64).toList.take 9 =
      "aistudio_".toList ∧
    (∀ c ∈ (ApiKeyRotation.generate_secure_api_key choice 64).toList.drop 9,
      c ∈ ApiKeyRotation.keyAlphabet) ∧
    (ApiKeyRotation.test_secret token
        (ApiKeyRotation.create_secret choice token s).store).err = none := by
  have hlen : (ApiKeyRotation.generate_secure_api_key choice 64).length = 73 :=
    generate_secure_api_key_length choice 64
  have hne : ApiKeyRotation.generate_secure_api_key choice 64 ≠ "" := by
    intro he
    rw [he] at hlen
    simp at hlen
  have hval : ¬(ApiKeyRotation.generate_secure_api_key choice 64 = "" ∨
      (ApiKeyRotation.generate_secure_api_key choice 64).length < 32) := by
    rw [hlen]
    simp [hne]
  have htake : (ApiKeyRotation.generate_secure_api_key choice 64).toList.take 9 =
      "aistudio_".toList := by
    rw [generate_secure_api_key_toList]
    exact List.take_left' (by decide)
  have hdrop : ∀ c ∈ (ApiKeyRotation.generate_secure_api_key choice 64).toList.drop 9,
      c ∈ ApiKeyRotation.keyAlphabet := by
    rw [generate_secure_api_key_toList, List.drop_left' (by decide)]
    intro c hc
    rcases List.mem_map.mp hc with ⟨n, _, hn⟩
    rw [← hn]
    exact hal n
  rcases hc : get_secret_value s none "AWSCURRENT" with _ | cur
  · have hred : ApiKeyRotation.create_secret choice token s =
        { store := put_secret_value s token
            (.obj [("apiKey", .str (ApiKeyRotation.generate_secure_api_key choice 64))]),
          err := none,
          ops := [.getSecretValue (some token) "AWSPENDING",
                  .getSecretValue none "AWSCURRENT",
                  .putSecretValue token
                    (.obj [("apiKey",
                      .str (ApiKeyRotation.generate_secure_api_key choice 64))])
                    ["AWSPENDING"]],
          dbOps := [] } := by
      unfold ApiKeyRotation.create_secret
      rw [hnp, hc]
    refine ⟨by rw [hred], hlen, by rw [hlen]; decide, htake, hdrop, ?_⟩
    rw [hred]
    unfold ApiKeyRotation.test_secret
    rw [get_put_pending s token
      (.obj [("apiKey", .str (ApiKeyRotation.generate_secure_api_key choice 64))])]
    simp [lookupField, hval]
  · rcases cur with fields | rawStr
    · have hred : ApiKeyRotation.create_secret choice token s =
          { store := put_secret_value s token
              (.obj (setField fields "apiKey"
                (.str (ApiKeyRotation.generate_secure_api_key choice 64)))),
            err := none,
            ops := [.getSecretValue (some token) "AWSPENDING",
                    .getSecretValue none "AWSCURRENT",
                    .putSecretValue token
                      (.obj (setField fields "apiKey"
                        (.str (ApiKeyRotation.generate_secure_api_key choice 64))))
                      ["AWSPENDING"]],
            dbOps := [] } := by
        unfold ApiKeyRotation.create_secret
        rw [hnp, hc]
        rfl
      refine ⟨by rw [hred], hlen, by rw [hlen]; decide, htake, hdrop, ?_⟩
      rw [hred]
      unfold ApiKeyRotation.test_secret
      rw [get_put_pending s token
        (.obj (setField fields "apiKey"
          (.str (ApiKeyRotation.generate_secure_api_key choice 64))))]
      simp [lookup_setField_self, hval]
    · have hred : ApiKeyRotation.create_secret choice token s =
          { store := put_secret_value s token
              (.raw (ApiKeyRotation.generate_secure_api_key choice 64)),
            err := none,
            ops := [.getSecretValue (some token) "AWSPENDING",
                    .getSecretValue none "AWSCURRENT",
                    .putSecretValue token
                      (.raw (ApiKeyRotation.generate_secure_api_key choice 64))
                      ["AWSPENDING"]],
            dbOps := [] } := by
        unfold ApiKeyRotation.create_secret
        rw [hnp, hc]
        rfl
      refine ⟨by rw [hred], hlen, by rw [hlen]; decide, htake, hdrop, ?_⟩
      rw [hred]
      unfold ApiKeyRotation.test_secret
      rw [get_put_pending s token
        (.raw (ApiKeyRotation.generate_secure_api_key choice 64))]
      simp [hval]

/-- C9 witness: a concrete draw function over a store whose current version
is a plain string. -/
theorem claim_C9_witness :
    (∀ n, (fun _ : Nat => 'a') n ∈ ApiKeyRotation.keyAlphabet) ∧
    get_secret_value rawSampleStore (some "t1") "AWSPENDING" = none ∧
    (ApiKeyRotation.test_secret "t1"
        (ApiKeyRotation.create_secret (fun _ => 'a') "t1" rawSampleStore).store).err
      = none :=
  ⟨fun _ => show 'a' ∈ ApiKeyRotation.keyAlphabet from by decide, by decide,
    (claim_C9 rawSampleStore "t1" (fun _ => 'a')
      (fun _ => show 'a' ∈ ApiKeyRotation.keyAlphabet from by decide)
      (by decide)).2.2.2.2.2⟩

/-- C6 counterexample: the custom variant accepts a pending credential of
length 1, far below the 32-character minimum the api-key variant enforces:
its test_secret succeeds on this payload instead of raising
ValidationFailed, because the custom variant checks only the presence of
the value field and applies no minimum-length rule. -/
theorem claim_C6_counterexample :
    get_secret_value customShortStore (some "t1") "AWSPENDING" =
      some (.obj [("value", JsonValue.str "x")]) ∧
    ("x" : String).length < 32 ∧
    (CustomRotation.test_secret "t1" customShortStore).err = none := by
  refine ⟨by decide, by decide, by decide⟩

/-- C6 amended: for a structured pending payload, the api-key variant raises
its validation ValueError when the apiKey field is missing or its string
value is shorter than 32 characters; the custom variant raises its
validation ValueError exactly when the parsed object is empty or lacks the
value field, and otherwise succeeds whatever the length of the credential,
so it performs no minimum-length check (see the counterexample). -/
theorem claim_C6 (s : Store) (token : String) (fields : List (String × JsonValue))
    (a : String) :
    ((get_secret_value s (some token) "AWSPENDING" = some (.obj fields)) →
      lookupField fields "apiKey" = none →
      (ApiKeyRotation.test_secret token s).err =
        some (.valueError "API key is too short or empty")) ∧
    ((get_secret_value s (some token) "AWSPENDING" = some (.obj fields)) →
      lookupField fields "apiKey" = some (.str a) → a.length < 32 →
      (ApiKeyRotation.test_secret token s).err =
        some (.valueError "API key is too short or empty")) ∧
    ((get_secret_value s (some token) "AWSPENDING" = some (.raw a)) →
      a.length < 32 →
      (ApiKeyRotation.test_secret token s).err =
        some (.valueError "API key is too short or empty")) ∧
    ((get_secret_value s (some token) "AWSPENDING" = some (.obj fields)) →
      ((CustomRotation.test_secret token s).err =
          some (.valueError "Custom secret missing required value field") ↔
        (fields.isEmpty ∨ (lookupField fields "value").isNone)) ∧
      (¬(fields.isEmpty ∨ (lookupField fields "value").isNone) →
        (CustomRotation.test_secret token s).err = none)) := by
  refine ⟨?_, ?_, ?_, ?_⟩
  · intro hp hnone
    unfold ApiKeyRotation.test_secret
    rw [hp]
    simp [hnone]
  · intro hp ha hlt
    unfold ApiKeyRotation.test_secret
    rw [hp]
    simp only [ha]
    rw [if_pos (Or.inr hlt)]
  · intro hp hlt
    unfold ApiKeyRotation.test_secret
    rw [hp]
    simp only []
    rw [if_pos (Or.inr hlt)]
  · intro hp
    unfold CustomRotation.test_secret
    rw [hp]
    simp only [SecretPayload.parseJson]
    by_cases hcond : fields.isEmpty ∨ (lookupField fields "value").isNone
    · rw [if_pos hcond]
      exact ⟨⟨fun _ => hcond, fun _ => rfl⟩, fun hn => absurd hcond hn⟩
    · rw [if_neg hcond]
      exact ⟨⟨fun he => absurd he (by simp), fun hc => absurd hc hcond⟩, fun _ => rfl⟩

/-- C6 witness: the api-key test on a pending payload with no apiKey field. -/
theorem claim_C6_witness :
    get_secret_value missingKeyStore (some "t1") "AWSPENDING" =
      some (.obj [("other", JsonValue.str "y")]) ∧
    lookupField [("other", JsonValue.str "y")] "apiKey" = none ∧
    (ApiKeyRotation.test_secret "t1" missingKeyStore).err =
      some (.valueError "API key is too short or empty") :=
  ⟨by decide, by decide,
    (claim_C6 missingKeyStore "t1" [("other", JsonValue.str "y")] "x").1
      (by decide) (by decide)⟩

/-- C2: on a well-formed store with exactly one version labelled current,
if a finish_secret invocation succeeds, then the second invocation with the
same token returns success immediately after the single DescribeSecret read,
issuing no label move and leaving the store unchanged; after both calls the
token version is the one and only current version. -/
theorem claim_C2 (s : Store) (token : String)
    (hWF : StoreWF s)
    (hone : countStage s "AWSCURRENT" = 1)
    (h1 : (DatabaseRotation.finish_secret token s).err = none) :
    DatabaseRotation.finish_secret token
        (DatabaseRotation.finish_secret token s).store =
      { store := (DatabaseRotation.finish_secret token s).store, err := none,
        ops := [.describeSecret], dbOps := [] } ∧
    stageHolders (DatabaseRotation.finish_secret token s).store "AWSCURRENT" = [token] := by
  obtain ⟨x, hx⟩ := filter_eq_single_of_countStage hone
  obtain ⟨hxmem, hxst, hchar⟩ := char_of_filter_single hWF hx
  have hfind : s.find? (fun v => v.stages.contains "AWSCURRENT") = some x := by
    rw [← List.filter_head? (fun v => v.stages.contains "AWSCURRENT") s, hx]
    rfl
  by_cases hxt : x.vid = token
  · have hr1 : DatabaseRotation.finish_secret token s =
        { store := s, err := none, ops := [.describeSecret], dbOps := [] } := by
      unfold DatabaseRotation.finish_secret
      rw [hfind]
      simp [hxt]
    rw [hr1]
    refine ⟨hr1, ?_⟩
    refine stageHolders_of_char ?_ hWF ⟨x, hxmem, hxt⟩
    intro v hv
    rw [hchar v hv, hxt]
  · cases hu : update_secret_version_stage s "AWSCURRENT" token (some x.vid) with
    | error e =>
        exfalso
        have : (DatabaseRotation.finish_secret token s).err = some e := by
          unfold DatabaseRotation.finish_secret
          rw [hfind]
          simp only [beq_eq_false_iff_ne.mpr hxt, Bool.false_eq_true, if_false]
          rw [hu]
        rw [h1] at this
        exact Option.noConfusion this
    | ok s1 =>
        have hr1 : DatabaseRotation.finish_secret token s =
            { store := s1, err := none,
              ops := [.describeSecret,
                      .updateSecretVersionStage "AWSCURRENT" token (some x.vid)],
              dbOps := [] } := by
          unfold DatabaseRotation.finish_secret
          rw [hfind]
          simp only [beq_eq_false_iff_ne.mpr hxt, Bool.false_eq_true, if_false]
          rw [hu]
        have hchar1 : ∀ v ∈ s1, v.stages.contains "AWSCURRENT" = (v.vid == token) :=
          update_char hu hchar
        have hWF1 : StoreWF s1 := by
          rw [StoreWF, update_vids hu]
          exact hWF
        have hmem1 := update_mem_mv hu
        obtain ⟨y, hfind2, hyt⟩ := find?_char hchar1 hmem1
        have hr2 : DatabaseRotation.finish_secret token s1 =
            { store := s1, err := none, ops := [.describeSecret], dbOps := [] } := by
          unfold DatabaseRotation.finish_secret
          rw [hfind2]
          simp [hyt]
        rw [hr1]
        exact ⟨hr2, stageHolders_of_char hchar1 hWF1 hmem1⟩

/-- C2 witness: the concrete store with current v1 and pending t1. -/
theorem claim_C2_witness :
    StoreWF finishSampleStore ∧
    countStage finishSampleStore "AWSCURRENT" = 1 ∧
    (DatabaseRotation.finish_secret "t1" finishSampleStore).err = none ∧
    stageHolders (DatabaseRotation.finish_secret "t1" finishSampleStore).store
      "AWSCURRENT" = ["t1"] :=
  ⟨by decide, by decide, by decide,
    (claim_C2 finishSampleStore "t1" (by decide) (by decide) (by decide)).2⟩

/-- The database create_secret either leaves the store unchanged or writes
the single put of the merged payload. -/
theorem DB_create_store (randPw token : String) (s : Store) :
    (DatabaseRotation.create_secret randPw token s).store = s ∨
    ∃ fields, (DatabaseRotation.create_secret randPw token s).store =
      put_secret_value s token (.obj (setField fields "password" (.str randPw))) := by
  unfold DatabaseRotation.create_secret
  rcases hg : get_secret_value s (some token) "AWSPENDING" with _ | p
  · rcases hc : get_secret_value s none "AWSCURRENT" with _ | cur
    · left
      rfl
    · rcases cur with fields | raws
      · right
        exact ⟨fields, rfl⟩
      · left
        rfl
  · left
    rfl

/-- The database set_secret never writes to the store. -/
theorem DB_set_store (connOk : Bool) (token : String) (s : Store) :
    (DatabaseRotation.set_secret connOk token s).store = s := by
  unfold DatabaseRotation.set_secret
  repeat' split
  all_goals rfl

/-- The database test_secret never writes to the store. -/
theorem DB_test_store (connOk : Bool) (token : String) (s : Store) :
    (DatabaseRotation.test_secret connOk token s).store = s := by
  unfold DatabaseRotation.test_secret
  repeat' split
  all_goals rfl

/-- The database create_secret preserves well-formedness and the protocol
invariant. -/
theorem DB_create_preserves (randPw token : String) {s : Store}
    (hWF : StoreWF s) (hInv : RotationInvariant s) :
    StoreWF (DatabaseRotation.create_secret randPw token s).store ∧
    RotationInvariant (DatabaseRotation.create_secret randPw token s).store := by
  rcases DB_create_store randPw token s with h | ⟨fields, h⟩
  · rw [h]
    exact ⟨hWF, hInv⟩
  · rw [h]
    refine ⟨StoreWF_put hWF token _, ?_, ?_⟩
    · rw [countStage_put_other s token _ (by decide)]
      exact hInv.1
    · rw [countStage_put_pending hWF token _]

/-- The database finish_secret preserves well-formedness and the protocol
invariant. -/
theorem DB_finish_preserves (token : String) {s : Store}
    (hWF : StoreWF s) (hInv : RotationInvariant s) :
    StoreWF (DatabaseRotation.finish_secret token s).store ∧
    RotationInvariant (DatabaseRotation.finish_secret token s).store := by
  obtain ⟨hcur, hpend⟩ := hInv
  obtain ⟨x, hx⟩ := filter_eq_single_of_countStage hcur
  obtain ⟨hxmem, hxst, hchar⟩ := char_of_filter_single hWF hx
  have hfind : s.find? (fun v => v.stages.contains "AWSCURRENT") = some x := by
    rw [← List.filter_head? (fun v => v.stages.contains "AWSCURRENT") s, hx]
    rfl
  by_cases hxt : x.vid = token
  · have hr : (DatabaseRotation.finish_secret token s).store = s := by
      unfold DatabaseRotation.finish_secret
      rw [hfind]
      simp [hxt]
    rw [hr]
    exact ⟨hWF, hcur, hpend⟩
  · cases hu : update_secret_version_stage s "AWSCURRENT" token (some x.vid) with
    | error e =>
        have hr : (DatabaseRotation.finish_secret token s).store = s := by
          unfold DatabaseRotation.finish_secret
          rw [hfind]
          simp only [beq_eq_false_iff_ne.mpr hxt, Bool.false_eq_true, if_false]
          rw [hu]
        rw [hr]
        exact ⟨hWF, hcur, hpend⟩
    | ok s1 =>
        have hr : (DatabaseRotation.finish_secret token s).store = s1 := by
          unfold DatabaseRotation.finish_secret
          rw [hfind]
          simp only [beq_eq_false_iff_ne.mpr hxt, Bool.false_eq_true, if_false]
          rw [hu]
        rw [hr]
        have hWF1 : StoreWF s1 := by
          rw [StoreWF, update_vids hu]
          exact hWF
        refine ⟨hWF1, ?_, ?_⟩
        · exact countP_eq_one_of_char (update_char hu hchar) hWF1 (update_mem_mv hu)
        · rw [update_other_stage_count hu (by decide)]
          exact hpend

/-- Any single step of the database variant preserves well-formedness and
the protocol invariant. -/
theorem runStep_preserves (token : String) (inv : Invocation) {s : Store}
    (hWF : StoreWF s) (hInv : RotationInvariant s) :
    StoreWF (runStep token inv s).store ∧ RotationInvariant (runStep token inv s).store := by
  rcases inv with ⟨step, randPw, connOk⟩
  cases step with
  | createSecret => exact DB_create_preserves randPw token hWF hInv
  | setSecret =>
      rw [runStep, DB_set_store connOk token s]
      exact ⟨hWF, hInv⟩
  | testSecret =>
      rw [runStep, DB_test_store connOk token s]
      exact ⟨hWF, hInv⟩
  | finishSecret => exact DB_finish_preserves token hWF hInv

/-- C3: from any well-formed store satisfying the protocol invariant
(exactly one current version, at most one pending version) and a single
in-flight token, every sequence of invocations of the four step operations
leaves the invariant intact: still exactly one current version and at most
one pending version. -/
theorem claim_C3 (token : String) (invs : List Invocation) (s : Store)
    (hWF : StoreWF s) (hInv : RotationInvariant s) :
    RotationInvariant (runSeq token invs s) ∧ StoreWF (runSeq token invs s) := by
  induction invs generalizing s with
  | nil => exact ⟨hInv, hWF⟩
  | cons inv rest ih =>
      have hstep := runStep_preserves token inv hWF hInv
      rw [runSeq]
      exact ih _ hstep.1 hstep.2

/-- C3 witness: the full four-step sequence, plus a stray duplicated create
and finish, run on the concrete sample store. -/
theorem claim_C3_witness :
    StoreWF dbSampleStore ∧
    RotationInvariant dbSampleStore ∧
    RotationInvariant (runSeq "t1"
      [{ step := .createSecret, randPw := samplePw32, connOk := true },
       { step := .createSecret, randPw := "changedpw", connOk := true },
       { step := .setSecret, randPw := "", connOk := true },
       { step := .testSecret, randPw := "", connOk := true },
       { step := .finishSecret, randPw := "", connOk := true },
       { step := .finishSecret, randPw := "", connOk := true }] dbSampleStore) :=
  ⟨by decide, by decide,
    (claim_C3 "t1"
      [{ step := .createSecret, randPw := samplePw32, connOk := true },
       { step := .createSecret, randPw := "changedpw", connOk := true },
       { step := .setSecret, randPw := "", connOk := true },
       { step := .testSecret, randPw := "", connOk := true },
       { step := .finishSecret, randPw := "", connOk := true },
       { step := .finishSecret, randPw := "", connOk := true }] dbSampleStore
      (by decide) (by decide)).1⟩

/-- Every version after detaching a stage label descends from an original
version with the same id and payload, and the same other labels. -/
theorem removeStageAll_decomp {s : Store} {st : String} {v : SecretVersion}
    (hv : v ∈ removeStageAll s st) :
    ∃ w ∈ s, v.vid = w.vid ∧ v.payload = w.payload ∧
      ∀ st', st' ≠ st → v.stages.contains st' = w.stages.contains st' := by
  rcases List.mem_map.mp hv with ⟨w, hw, rfl⟩
  exact ⟨w, hw, rfl, rfl, fun st' h => contains_filter_stage_other w.stages h⟩

/-- A put leaves the current-label characterisation of the store intact. -/
theorem put_current_char {s : Store} {c token : String} {p : SecretPayload}
    (hch : ∀ v ∈ s, v.stages.contains "AWSCURRENT" = (v.vid == c))
    (hex : ∃ v ∈ s, v.vid = c) :
    ∀ v ∈ put_secret_value s token p,
      v.stages.contains "AWSCURRENT" = (v.vid == c) := by
  have hch0 : ∀ v ∈ removeStageAll s "AWSPENDING",
      v.stages.contains "AWSCURRENT" = (v.vid == c) := by
    intro v hv
    rcases removeStageAll_decomp hv with ⟨w, hw, hvid, _, hst⟩
    rw [hst "AWSCURRENT" (by decide), hvid]
    exact hch w hw
  intro v hv
  unfold put_secret_value at hv
  by_cases hany : (removeStageAll s "AWSPENDING").any (fun v => v.vid == token) = true
  · simp only [hany, if_true] at hv
    rcases List.mem_map.mp hv with ⟨w, hw, rfl⟩
    by_cases hwt : w.vid = token
    · simp only [hwt, beq_self_eq_true, if_true]
      rw [contains_append_other _ (by decide), ← hwt]
      exact hch0 w hw
    · simp only [beq_eq_false_iff_ne.mpr hwt, Bool.false_eq_true, if_false]
      exact hch0 w hw
  · simp only [hany, Bool.false_eq_true, if_false] at hv
    rcases List.mem_append.mp hv with hv0 | hv1
    · exact hch0 v hv0
    · simp only [List.mem_singleton] at hv1
      subst hv1
      have htc : token ≠ c := by
        intro he
        rcases hex with ⟨w, hw, hwc⟩
        have hw0 : ({ w with stages := w.stages.filter (fun x => x ≠ "AWSPENDING") }
            : SecretVersion) ∈ removeStageAll s "AWSPENDING" :=
          List.mem_map_of_mem _ hw
        exact hany (List.any_eq_true.mpr ⟨_, hw0, by simp [hwc, he]⟩)
      simp [htc]

/-- A label move to an existing destination version succeeds. -/
theorem update_ok_of_mem {s : Store} {st mv : String} {rf : Option String}
    (hex : ∃ v ∈ s, v.vid = mv) :
    ∃ s1, update_secret_version_stage s st mv rf = .ok s1 := by
  unfold update_secret_version_stage
  rcases hex with ⟨v, hv, hvm⟩
  rw [if_pos (List.any_eq_true.mpr ⟨v, hv, by simp [hvm]⟩)]
  exact ⟨_, rfl⟩

/-- C10: on a well-formed store with exactly one current version holding a
structured payload and no pending version under the token, the oauth
create_secret succeeds and the pending payload it writes is exactly the
current payload (the provider refresh is an unimplemented placeholder), and
after finish_secret completes the rotation the current payload is
byte-for-byte what it was before the rotation. -/
theorem claim_C10 (s : Store) (token : String) (fields : List (String × JsonValue))
    (hWF : StoreWF s)
    (hone : countStage s "AWSCURRENT" = 1)
    (hnp : get_secret_value s (some token) "AWSPENDING" = none)
    (hcur : get_secret_value s none "AWSCURRENT" = some (.obj fields)) :
    (OauthRotation.create_secret token s).err = none ∧
    get_secret_value (OauthRotation.create_secret token s).store (some token) "AWSPENDING"
      = some (.obj fields) ∧
    (OauthRotation.finish_secret token (OauthRotation.create_secret token s).store).err
      = none ∧
    get_secret_value
        (OauthRotation.finish_secret token
          (OauthRotation.create_secret token s).store).store none "AWSCURRENT"
      = some (.obj fields) := by
  have hred : OauthRotation.create_secret token s =
      { store := put_secret_value s token (.obj fields), err := none,
        ops := [.getSecretValue (some token) "AWSPENDING",
                .getSecretValue none "AWSCURRENT",
                .putSecretValue token (.obj fields) ["AWSPENDING"]],
        dbOps := [] } := by
    unfold OauthRotation.create_secret
    rw [hnp, hcur]
    rfl
  obtain ⟨x, hx⟩ := filter_eq_single_of_countStage hone
  obtain ⟨hxmem, hxst, hchar⟩ := char_of_filter_single hWF hx
  have hxpay : x.payload = .obj fields := by
    have hfind : s.find? (fun v => v.stages.contains "AWSCURRENT") = some x := by
      rw [← List.filter_head? (fun v => v.stages.contains "AWSCURRENT") s, hx]
      rfl
    have : get_secret_value s none "AWSCURRENT" = some x.payload := by
      unfold get_secret_value
      rw [hfind]
      rfl
    rw [hcur] at this
    exact (Option.some.inj this).symm
  have hpays : ∀ v ∈ s, v.vid = x.vid → v.payload = .obj fields := by
    intro v hv hvx
    rw [vid_inj hWF hv hxmem hvx]
    exact hxpay
  set s1 := put_secret_value s token (.obj fields) with hs1
  have hWF1 : StoreWF s1 := StoreWF_put hWF token _
  have hchar1 : ∀ v ∈ s1, v.stages.contains "AWSCURRENT" = (v.vid == x.vid) :=
    put_current_char hchar ⟨x, hxmem, rfl⟩
  have hex1 : ∃ v ∈ s1, v.vid = x.vid := by
    rcases put_vids s token (.obj fields) with h | ⟨h, _⟩
    · have : x.vid ∈ s1.map SecretVersion.vid := by
        rw [h]
        exact List.mem_map_of_mem SecretVersion.vid hxmem
      rcases List.mem_map.mp this with ⟨w, hw, hwv⟩
      exact ⟨w, hw, hwv⟩
    · have : x.vid ∈ s1.map SecretVersion.vid := by
        rw [h]
        exact List.mem_append.mpr (Or.inl (List.mem_map_of_mem SecretVersion.vid hxmem))
      rcases List.mem_map.mp this with ⟨w, hw, hwv⟩
      exact ⟨w, hw, hwv⟩
  have hpaytok1 : ∀ v ∈ s1, v.vid = token → v.payload = .obj fields :=
    put_payload_token s token (.obj fields)
  obtain ⟨y, hfind1, hyx⟩ := find?_char hchar1 hex1
  refine ⟨by rw [hred], by rw [hred]; exact get_put_pending s token (.obj fields), ?_, ?_⟩
  · rw [hred]
    by_cases hxt : x.vid = token
    · unfold OauthRotation.finish_secret DatabaseRotation.finish_secret
      rw [hfind1]
      simp [hyx, hxt]
    · obtain ⟨s2, hu⟩ := @update_ok_of_mem s1 "AWSCURRENT" token (some y.vid)
        (put_mem_token s token (.obj fields))
      unfold OauthRotation.finish_secret DatabaseRotation.finish_secret
      rw [hfind1]
      have hyt : ¬ y.vid = token := by
        rw [hyx]
        exact hxt
      simp only [beq_eq_false_iff_ne.mpr hyt, Bool.false_eq_true, if_false]
      rw [hu]
  · rw [hred]
    by_cases hxt : x.vid = token
    · have hfin : (OauthRotation.finish_secret token s1).store = s1 := by
        unfold OauthRotation.finish_secret DatabaseRotation.finish_secret
        rw [hfind1]
        simp [hyx, hxt]
      rw [hfin]
      unfold get_secret_value
      apply find?_payload_eq
      · refine ⟨y, List.mem_of_find?_eq_some hfind1, ?_⟩
        rw [hchar1 y (List.mem_of_find?_eq_some hfind1)]
        simp [hyx]
      · intro v hv hcv
        rw [hchar1 v hv] at hcv
        simp only [beq_iff_eq] at hcv
        exact hpaytok1 v hv (by rw [hcv, hxt])
    · obtain ⟨s2, hu⟩ := @update_ok_of_mem s1 "AWSCURRENT" token (some y.vid)
        (put_mem_token s token (.obj fields))
      have hfin : (OauthRotation.finish_secret token s1).store = s2 := by
        unfold OauthRotation.finish_secret DatabaseRotation.finish_secret
        rw [hfind1]
        have hyt : ¬ y.vid = token := by
          rw [hyx]
          exact hxt
        simp only [beq_eq_false_iff_ne.mpr hyt, Bool.false_eq_true, if_false]
        rw [hu]
      rw [hfin]
      have hchar2 : ∀ v ∈ s2, v.stages.contains "AWSCURRENT" = (v.vid == token) := by
        apply update_char hu
        intro v hv
        rw [hchar1 v hv, hyx]
      have hpay2 : ∀ v ∈ s2, v.vid = token → v.payload = .obj fields :=
        update_payload_char hu hpaytok1
      have hmem2 := update_mem_mv hu
      unfold get_secret_value
      apply find?_payload_eq
      · rcases hmem2 with ⟨w, hw, hwt⟩
        refine ⟨w, hw, ?_⟩
        rw [hchar2 w hw]
        simp [hwt]
      · intro v hv hcv
        rw [hchar2 v hv] at hcv
        simp only [beq_iff_eq] at hcv
        exact hpay2 v hv hcv

/-- C10 witness: the concrete oauth store rotated under token t1. -/
theorem claim_C10_witness :
    StoreWF oauthSampleStore ∧
    countStage oauthSampleStore "AWSCURRENT" = 1 ∧
    get_secret_value oauthSampleStore (some "t1") "AWSPENDING" = none ∧
    get_secret_value
        (OauthRotation.finish_secret "t1"
          (OauthRotation.create_secret "t1" oauthSampleStore).store).store none "AWSCURRENT"
      = some (.obj [("access_token", JsonValue.str "abc"),
                    ("refresh_token", JsonValue.str "def")]) :=
  ⟨by decide, by decide, by decide,
    (claim_C10 oauthSampleStore "t1"
      [("access_token", JsonValue.str "abc"), ("refresh_token", JsonValue.str "def")]
      (by decide) (by decide) (by decide) (by decide)).2.2.2⟩
